import Mathlib

/-!
Verification of the Analysis & Backtesting Engine of the `columb` trading
analysis system (modules `analysis/indicators.py`, `analysis/metrics.py`,
`analysis/rankings.py`, `analysis/opportunities.py`, `backtest/engine.py`).

Modelling conventions:
* Python floats are modelled as exact rationals (`ℚ`).  The two library
  calls that compute irrational functions (`np.tanh` in the momentum metric
  and the square root inside `np.std` for the z-score) are abstracted into a
  `FloatOps` parameter, so every definition stays executable and every
  theorem quantifies over the implementations of those two functions.
* Python dictionaries keyed by symbol are modelled as association lists in
  insertion order (Python dictionaries preserve insertion order).  All
  dictionaries built by the code have unique keys (they are keyed by the
  trading-pair symbol of a per-symbol loop), so a first-match `lookup`
  has the same semantics as a Python dictionary access.
* Python `datetime` values are modelled as integer timestamps in seconds;
  `(a - b).total_seconds()` becomes integer subtraction.
* Python sets of symbols are modelled as lists used only through membership.
-/

namespace Columb



/-- One OHLCV candle (`{'timestamp', 'open', 'high', 'low', 'close', 'volume'}`).
The `open` price field is called `opn` because `open` is a Lean keyword. -/
structure Candle where
  timestamp : ℤ
  opn : ℚ
  high : ℚ
  low : ℚ
  close : ℚ
  volume : ℚ
deriving DecidableEq, Repr

/-- Trade direction. -/
inductive Direction where
  | long
  | short
deriving DecidableEq, Repr

/-- Exit reason of a simulated trade. -/
inductive ExitReason where
  | take_profit
  | stop_loss
  | max_duration
deriving DecidableEq, Repr

/-- Abstraction of the two transcendental library functions used by the
metric engine (`np.tanh` and the square root inside `np.std`).  All theorems
hold for every implementation of these operations. -/
structure FloatOps where
  tanh : ℚ → ℚ
  sqrt : ℚ → ℚ

/-- A placeholder candle used for list accesses that are always in range in
the source (Python would raise `IndexError` on the unreachable branch). -/
def dummyCandle : Candle :=
  { timestamp := 0, opn := 0, high := 0, low := 0, close := 0, volume := 0 }

/-! ### Configuration (`config.py`, default values) -/

def VOLUME_BASELINE_PERIOD : ℕ := 20

def MOMENTUM_PERIOD : ℕ := 14

def ZSCORE_PERIOD : ℕ := 20

def SUPERTREND_PERIOD : ℕ := 10

def SUPERTREND_MULTIPLIER : ℚ := 3

def THRESHOLD_volume : ℚ := 2

def THRESHOLD_momentum : ℚ := 4/5

def THRESHOLD_zscore : ℚ := 3/2

def THRESHOLD_rank_change : ℚ := 3

def THRESHOLD_price : ℚ := 3/2

def TAKE_PROFIT : ℚ := 3

def STOP_LOSS : ℚ := 3/2

def MAX_BARS : ℕ := 20

/-! ### Small numeric helpers shared by the indicator library -/

/-- `np.mean` of a list of rationals (only ever called on non-empty lists). -/
def mean (l : List ℚ) : ℚ := l.sum / l.length

/-- `np.diff`: consecutive differences of a price list. -/
def diffs : List ℚ → List ℚ
  | [] => []
  | [_] => []
  | a :: b :: rest => (b - a) :: diffs (b :: rest)

/-! ### `indicators.calculate_rsi` -/

/-- RSI value from an average gain and an average loss
(`100.0` when the average loss is zero). -/
def rsiFromAvgs (avg_gain avg_loss : ℚ) : ℚ :=
  if avg_loss = 0 then 100
  else 100 - 100 / (1 + avg_gain / avg_loss)

/-- The Wilder-smoothing loop of `calculate_rsi`
(`for i in range(period, len(changes))` with the running average gain/loss). -/
def rsiLoop (period : ℕ) : List (ℚ × ℚ) → ℚ → ℚ → List ℚ
  | [], _, _ => []
  | (g, l) :: rest, avg_gain, avg_loss =>
      let ag2 := (avg_gain * ((period : ℚ) - 1) + g) / period
      let al2 := (avg_loss * ((period : ℚ) - 1) + l) / period
      rsiFromAvgs ag2 al2 :: rsiLoop period rest ag2 al2

/-- `indicators.calculate_rsi` on a list of close prices.  Faithful to the
source, including the placement of the produced RSI values: one leading
`None`, then the RSI values, then the `while len(result) < len(data)`
tail padding of `None`s. -/
def calculateRsi (data : List ℚ) (period : ℕ) : List (Option ℚ) :=
  if data.length ≤ period then List.replicate data.length none
  else
    let changes := diffs data
    let gains := changes.map (fun c => if 0 < c then c else 0)
    let losses := changes.map (fun c => if c < 0 then -c else 0)
    if changes.length < period then
      none :: List.replicate changes.length none
    else
      let avg_gain := mean (gains.take period)
      let avg_loss := mean (losses.take period)
      let first := rsiFromAvgs avg_gain avg_loss
      let rest := (rsiLoop period ((gains.zip losses).drop period) avg_gain avg_loss).map some
      let result := none :: some first :: rest
      result ++ List.replicate (data.length - result.length) none

/-- `calculate_rsi` applied to candle dictionaries extracts the close prices
first (the `isinstance(data[0], dict)` branch). -/
def calculateRsiCandles (data : List Candle) (period : ℕ) : List (Option ℚ) :=
  calculateRsi (data.map Candle.close) period

/-! ### `indicators.calculate_atr` -/

/-- True ranges: `max(high-low, |high-prev_close|, |low-prev_close|)`, with
the previous-close terms zeroed on the first bar (`tr2[0] = tr3[0] = 0`). -/
def trueRangesAux (prev : Candle) : List Candle → List ℚ
  | [] => []
  | c :: rest =>
      max (max (c.high - c.low) |c.high - prev.close|) |c.low - prev.close| ::
        trueRangesAux c rest

def trueRanges : List Candle → List ℚ
  | [] => []
  | c :: rest => (c.high - c.low) :: trueRangesAux c rest

/-- ATR recursion after the first bar: simple average of the true ranges so
far while `i < period`, Wilder smoothing afterwards. -/
def atrRest (period : ℕ) (allTrs : List ℚ) : List ℚ → ℕ → ℚ → List ℚ
  | [], _, _ => []
  | t :: rest, i, prev =>
      let a :=
        if i < period then (allTrs.take (i + 1)).sum / ((i : ℚ) + 1)
        else (prev * ((period : ℚ) - 1) + t) / period
      a :: atrRest period allTrs rest (i + 1) a

/-- `indicators.calculate_atr`: zeros when there are fewer than `period`
candles, otherwise `atr[0] = tr[0]` followed by the recursion above. -/
def calculateAtr (data : List Candle) (period : ℕ) : List ℚ :=
  if data.length < period then List.replicate data.length 0
  else
    match trueRanges data with
    | [] => []
    | t :: rest => t :: atrRest period (t :: rest) rest 1 t

/-! ### `indicators.calculate_supertrend` -/

/-- One Supertrend output row.  `in_uptrend` is an `Option Bool` because the
insufficient-data placeholder row stores `None` there, while the regular
placeholder rows store `True`. -/
structure STEntry where
  upperband : Option ℚ
  lowerband : Option ℚ
  in_uptrend : Option Bool
  signal_change : Bool
  buy_signal : Bool
  sell_signal : Bool
deriving DecidableEq, Repr

/-- Placeholder row emitted for the first `period` bars of the regular path. -/
def stPlaceholder : STEntry :=
  { upperband := none, lowerband := none, in_uptrend := some true,
    signal_change := false, buy_signal := false, sell_signal := false }

/-- Placeholder row of the insufficient-data early return
(it has no `buy_signal`/`sell_signal` keys in the source; a missing key is
read back with falsy `.get`, so `false` is the faithful value). -/
def stInsufficient : STEntry :=
  { upperband := none, lowerband := none, in_uptrend := none,
    signal_change := false, buy_signal := false, sell_signal := false }

/-- The main Supertrend loop over `data.zip atr` carrying the bar index and
the previously emitted row.  The `getD` fallbacks correspond to branches
that are unreachable in the source (the previous row always carries bands
once `i > period`). -/
def supertrendLoop (period : ℕ) (multiplier : ℚ) :
    List (Candle × ℚ) → ℕ → Option STEntry → List STEntry
  | [], _, _ => []
  | (c, a) :: rest, i, prevRow =>
      let e :=
        if i < period then stPlaceholder
        else
          let basic_upperband := (c.high + c.low) / 2 + multiplier * a
          let basic_lowerband := (c.high + c.low) / 2 - multiplier * a
          if i = period then
            { upperband := some basic_upperband, lowerband := some basic_lowerband,
              in_uptrend := some true, signal_change := false,
              buy_signal := false, sell_signal := false }
          else
            match prevRow with
            | none => stPlaceholder
            | some p =>
                let prev_upperband := p.upperband.getD basic_upperband
                let prev_lowerband := p.lowerband.getD basic_lowerband
                let prev_in_uptrend := (p.in_uptrend.getD true)
                let upperband :=
                  if prev_in_uptrend then basic_upperband
                  else min basic_upperband prev_upperband
                let lowerband :=
                  if prev_in_uptrend then max basic_lowerband prev_lowerband
                  else basic_lowerband
                let in_uptrend :=
                  if prev_in_uptrend then decide (lowerband ≤ c.close)
                  else decide (upperband ≤ c.close)
                let signal_change := in_uptrend ≠ prev_in_uptrend
                { upperband := some upperband, lowerband := some lowerband,
                  in_uptrend := some in_uptrend, signal_change := signal_change,
                  buy_signal := in_uptrend && signal_change,
                  sell_signal := !in_uptrend && signal_change }
      e :: supertrendLoop period multiplier rest (i + 1) (some e)

/-- `indicators.calculate_supertrend`. -/
def calculateSupertrend (data : List Candle) (period : ℕ) (multiplier : ℚ) :
    List STEntry :=
  if data.length < period then List.replicate data.length stInsufficient
  else supertrendLoop period multiplier (data.zip (calculateAtr data period)) 0 none

/-! ### `indicators.calculate_zscore` -/

/-- `indicators.calculate_zscore`: rolling z-score
`(price - window_mean) / window_std`, `0.0` when the standard deviation is
not positive.  `np.std` is `sqrt` of the mean squared deviation; the square
root is taken through the abstract `FloatOps`. -/
def calculateZscore (ops : FloatOps) (prices : List ℚ) (period : ℕ) :
    List (Option ℚ) :=
  if prices.length < period then List.replicate prices.length none
  else
    (List.range prices.length).map (fun i =>
      if i < period - 1 then none
      else
        let window := (prices.drop (i + 1 - period)).take period
        let m := mean window
        let std := ops.sqrt (mean (window.map (fun x => (x - m) ^ 2)))
        if 0 < std then some ((prices.getD i 0 - m) / std) else some 0)

/-! ### `indicators.calculate_price_change_percentage` -/

/-- Start/end price selection by mode; an unknown mode raises `ValueError`
(the source message also lists the accepted modes). -/
def pcpStartEnd (data : List Candle) (period : ℕ) (mode : String) (i : ℕ) :
    Except String (ℚ × ℚ) :=
  if mode = "close-to-close" then
    .ok ((data.getD (i - period) dummyCandle).close, (data.getD i dummyCandle).close)
  else if mode = "open-to-close" then
    .ok ((data.getD i dummyCandle).opn, (data.getD i dummyCandle).close)
  else if mode = "high-to-low" then
    .ok ((data.getD i dummyCandle).high, (data.getD i dummyCandle).low)
  else .error ("Invalid mode: " ++ mode)

/-- The appending loop of `calculate_price_change_percentage`. -/
def pcpLoop (data : List Candle) (period : ℕ) (mode : String) :
    List ℕ → List (Option ℚ) → Except String (List (Option ℚ))
  | [], acc => .ok acc
  | i :: rest, acc =>
      match pcpStartEnd data period mode i with
      | .error e => .error e
      | .ok (start_price, end_price) =>
          let v :=
            if 0 < start_price then
              some (((end_price - start_price) / start_price) * 100)
            else some 0
          pcpLoop data period mode rest (acc ++ [v])

/-- `indicators.calculate_price_change_percentage`.  Returns
`[None] * len(data)` when there are fewer than `period + 1` candles (never
reaching the mode check), otherwise iterates `i` over
`range(period, len(data))` and raises on an unknown mode. -/
def calculatePriceChangePercentage (data : List Candle) (period : ℕ)
    (mode : String) : Except String (List (Option ℚ)) :=
  if data.length < period + 1 then .ok (List.replicate data.length none)
  else pcpLoop data period mode (List.range' period (data.length - period))
    (List.replicate period none)

/-! ### Metric engine (`analysis/metrics.py`) -/

/-- One `MetricRecord` as produced by `calculate_all_metrics`.
`in_uptrend` is an `Option Bool`: the value latched from the Supertrend can
be the `None` placeholder in degenerate cases, and Python keeps that `None`
in the record. -/
structure MetricRecord where
  symbol : String
  volume_metric : ℚ
  momentum_metric : ℚ
  total_pct_change : ℚ
  zscore_metric : ℚ
  price_metric : ℚ
  price : ℚ
  in_uptrend : Option Bool
deriving DecidableEq, Repr

/-- The empty-dictionary default used by `metrics.get(symbol, {})` readers:
every field read out of it falls back to the per-key `.get` default. -/
def defaultMetricRecord : MetricRecord :=
  { symbol := "", volume_metric := 0, momentum_metric := 0,
    total_pct_change := 0, zscore_metric := 0, price_metric := 0,
    price := 0, in_uptrend := none }

/-- `metrics.calculate_volume_metric`: proportional buy/sell volume split per
candle (skipping candles with `high == low`), then the buy/sell ratio
(`1.0` when no sell volume accrued). -/
def calculateVolumeMetric (data : List Candle) : ℚ :=
  if data.length < VOLUME_BASELINE_PERIOD then 0
  else
    let acc := data.foldl (fun (p : ℚ × ℚ) c =>
      if c.high = c.low then p
      else
        (p.1 + c.volume * (c.close - c.low) / (c.high - c.low),
         p.2 + c.volume * (c.high - c.close) / (c.high - c.low))) (0, 0)
    if 0 < acc.2 then acc.1 / acc.2 else 1

/-- `metrics.calculate_total_pct_change`: percent change between the high/low
midpoints of the first and last candle. -/
def calculateTotalPctChange (data : List Candle) : ℚ :=
  if data.length < 2 then 0
  else
    let c0 := data.headD dummyCandle
    let cl := data.getLastD dummyCandle
    let start_price := (c0.high + c0.low) / 2
    let current_price := (cl.high + cl.low) / 2
    if start_price = 0 then 0
    else ((current_price - start_price) / start_price) * 100

/-- `metrics.calculate_momentum_metric`: tanh-compressed percentage change
between the two most recent valid RSI values.  (The source also computes
`calculate_total_pct_change` here and discards the result.) -/
def calculateMomentumMetric (ops : FloatOps) (data : List Candle) : ℚ :=
  if data.length < MOMENTUM_PERIOD then 0
  else
    let rsi_values := calculateRsiCandles data MOMENTUM_PERIOD
    let valid_rsi := rsi_values.filterMap id
    if valid_rsi.length < 2 then 0
    else
      let latest_rsi := valid_rsi.getLastD 0
      let previous_rsi := valid_rsi.dropLast.getLastD 0
      let momentum_change := latest_rsi - previous_rsi
      let momentum_pct_change :=
        if previous_rsi ≠ 0 then (momentum_change / previous_rsi) * 100 else 0
      ops.tanh (momentum_pct_change / 10)

/-- `metrics.calculate_zscore_metric`: last valid rolling z-score. -/
def calculateZscoreMetric (ops : FloatOps) (data : List Candle) : ℚ :=
  if data.length < ZSCORE_PERIOD then 0
  else
    let zscore_values := calculateZscore ops (data.map Candle.close) ZSCORE_PERIOD
    let valid_zscores := zscore_values.filterMap id
    valid_zscores.getLastD 0

/-- Index of the latest Supertrend row satisfying `p` (the source scans from
the end and keeps the first hit). -/
def latestIdxWhere (p : STEntry → Bool) (st : List STEntry) : Option ℕ :=
  match st.reverse.findIdx? p with
  | some k => some (st.length - 1 - k)
  | none => none

/-- `metrics.calculate_price_metric` with a fresh per-call `symbol_info`
state (as in `calculate_all_metrics`, where `signal_prices` is a local
dictionary): the pullback level is always latched from the latest signal
bar on this call.  Returns the percent distance from the latched pullback
level and the final `in_uptrend` flag written into the state. -/
def calculatePriceMetric (data : List Candle) : ℚ × Option Bool :=
  let st := calculateSupertrend data SUPERTREND_PERIOD SUPERTREND_MULTIPLIER
  let latest_buy := latestIdxWhere (fun e => e.buy_signal) st
  let latest_sell := latestIdxWhere (fun e => e.sell_signal) st
  let latest_signal : Option (ℕ × Bool) :=
    match latest_buy, latest_sell with
    | some b, some s => if s < b then some (b, true) else some (s, false)
    | some b, none => some (b, true)
    | none, some s => some (s, false)
    | none, none => none
  let last_in_uptrend : Option Bool :=
    match st.getLast? with
    | some e => e.in_uptrend
    | none => some true
  match latest_signal with
  | none => (0, last_in_uptrend)
  | some (i, is_buy) =>
      if data.length ≤ i then (0, last_in_uptrend)
      else
        let signal_bar := data.getD i dummyCandle
        let pullback_level := if is_buy then signal_bar.low else signal_bar.high
        let current_price := (data.getLastD dummyCandle).close
        let diff_percent :=
          if is_buy then
            if 0 < pullback_level then
              ((current_price - pullback_level) / pullback_level) * 100
            else 0
          else
            if 0 < pullback_level then
              ((pullback_level - current_price) / pullback_level) * 100
            else 0
        (diff_percent, last_in_uptrend)

/-- `max(VOLUME_BASELINE_PERIOD, MOMENTUM_PERIOD, ZSCORE_PERIOD,
SUPERTREND_PERIOD)`: symbols with fewer candles are skipped entirely. -/
def minRequiredData : ℕ :=
  max (max VOLUME_BASELINE_PERIOD MOMENTUM_PERIOD)
    (max ZSCORE_PERIOD SUPERTREND_PERIOD)

/-- `metrics.calculate_all_metrics`: one `MetricRecord` per symbol with
enough candles, in input (dictionary insertion) order. -/
def calculateAllMetrics (ops : FloatOps)
    (historical_data : List (String × List Candle)) : List MetricRecord :=
  historical_data.filterMap (fun sd =>
    if sd.2.length < minRequiredData then none
    else
      let pm := calculatePriceMetric sd.2
      some
        { symbol := sd.1,
          volume_metric := calculateVolumeMetric sd.2,
          momentum_metric := calculateMomentumMetric ops sd.2,
          total_pct_change := calculateTotalPctChange sd.2,
          zscore_metric := calculateZscoreMetric ops sd.2,
          price_metric := pm.1,
          price := (sd.2.getLastD dummyCandle).close,
          in_uptrend := pm.2 })

/-! ### Ranking engine (`analysis/rankings.py`) -/

/-- The rank-assignment loop of `rank_by_metric`: walk the sorted values with
the running `(idx, current_rank, prev_value)` state; a value different from
its predecessor opens a new rank equal to its 1-based position, equal values
share the predecessor's rank. -/
def assignRanksAux : List ℚ → ℕ → ℕ → Option ℚ → List ℕ
  | [], _, _, _ => []
  | v :: rest, idx, current_rank, prev_value =>
      let cur2 := if 0 < idx ∧ prev_value ≠ some v then idx + 1 else current_rank
      cur2 :: assignRanksAux rest (idx + 1) cur2 (some v)

/-- Ranks assigned to a list of (already sorted) metric values. -/
def assignRanks (vs : List ℚ) : List ℕ := assignRanksAux vs 0 1 none

/-- `rankings.rank_by_metric`, generic over the item type: stable-sort the
items by the metric value (Python `sorted` with `reverse=not ascending`),
then pair each symbol with its tie-aware rank.  The result is the
symbol-to-rank dictionary as an association list. -/
def rankByKey {ι : Type} (items : List ι) (symOf : ι → String) (valOf : ι → ℚ)
    (ascending : Bool) : List (String × ℕ) :=
  let sorted_items := items.mergeSort (fun a b =>
    if ascending then decide (valOf a ≤ valOf b) else decide (valOf b ≤ valOf a))
  (sorted_items.map symOf).zip (assignRanks (sorted_items.map valOf))

/-- `ranks.get(symbol, default)` on a rank dictionary. -/
def rankGet (ranks : List (String × ℕ)) (s : String) (dflt : ℕ) : ℕ :=
  (ranks.lookup s).getD dflt

/-- One `RankingRecord` of `calculate_rankings`. -/
structure RankingRecord where
  symbol : String
  price : ℚ
  volume_metric : ℚ
  volume_rank : ℕ
  momentum_metric : ℚ
  momentum_rank : ℕ
  total_pct_change : ℚ
  total_pct_rank : ℕ
  zscore_metric : ℚ
  zscore_rank : ℕ
  price_metric : ℚ
  price_rank : ℕ
  total_score : ℕ
  in_uptrend : Option Bool
  overall_rank : ℕ
deriving DecidableEq, Repr

/-- The per-symbol records of `calculate_rankings` before the overall rank is
written in (the Python dictionary has no `overall_rank` key at this point;
the placeholder `0` is never read). -/
def baseRankings (metrics_list : List MetricRecord) : List RankingRecord :=
  let volume_ranks := rankByKey metrics_list MetricRecord.symbol
    MetricRecord.volume_metric false
  let momentum_ranks := rankByKey metrics_list MetricRecord.symbol
    MetricRecord.momentum_metric false
  let total_pct_ranks := rankByKey metrics_list MetricRecord.symbol
    MetricRecord.total_pct_change false
  let zscore_ranks := rankByKey metrics_list MetricRecord.symbol
    MetricRecord.zscore_metric false
  let price_ranks := rankByKey metrics_list MetricRecord.symbol
    MetricRecord.price_metric false
  metrics_list.map (fun m =>
    let volume_rank := rankGet volume_ranks m.symbol 999
    let momentum_rank := rankGet momentum_ranks m.symbol 999
    let total_pct_rank := rankGet total_pct_ranks m.symbol 999
    let zscore_rank := rankGet zscore_ranks m.symbol 999
    let price_rank := rankGet price_ranks m.symbol 999
    { symbol := m.symbol, price := m.price,
      volume_metric := m.volume_metric, volume_rank := volume_rank,
      momentum_metric := m.momentum_metric, momentum_rank := momentum_rank,
      total_pct_change := m.total_pct_change, total_pct_rank := total_pct_rank,
      zscore_metric := m.zscore_metric, zscore_rank := zscore_rank,
      price_metric := m.price_metric, price_rank := price_rank,
      total_score := volume_rank + momentum_rank + total_pct_rank +
        zscore_rank + price_rank,
      in_uptrend := m.in_uptrend, overall_rank := 0 })

/-- The overall-rank dictionary: `rank_by_metric(rankings, 'total_score',
ascending=True)`. -/
def overallRanks (metrics_list : List MetricRecord) : List (String × ℕ) :=
  rankByKey (baseRankings metrics_list) RankingRecord.symbol
    (fun r => (r.total_score : ℚ)) true

/-- `rankings.calculate_rankings`. -/
def calculateRankings (metrics_list : List MetricRecord) : List RankingRecord :=
  if metrics_list.isEmpty then []
  else
    let ranks := overallRanks metrics_list
    (baseRankings metrics_list).map (fun r =>
      { r with overall_rank := rankGet ranks r.symbol 999 })

/-- One `RankingDelta` record of `calculate_ranking_changes`. -/
structure RankChanges where
  symbol : String
  volume_rank_change : ℤ
  momentum_rank_change : ℤ
  total_pct_rank_change : ℤ
  zscore_rank_change : ℤ
  price_rank_change : ℤ
  overall_rank_change : ℤ
deriving DecidableEq, Repr

/-- All-zero ranking changes (no previous snapshot for this symbol). -/
def zeroChanges (s : String) : RankChanges :=
  { symbol := s, volume_rank_change := 0, momentum_rank_change := 0,
    total_pct_rank_change := 0, zscore_rank_change := 0,
    price_rank_change := 0, overall_rank_change := 0 }

/-- `rankings.calculate_ranking_changes`: `previous_rank - current_rank` per
field, zero-filled when there is no previous snapshot (or it is empty). -/
def calculateRankingChanges (current : List RankingRecord)
    (previous : Option (List RankingRecord)) : List (String × RankChanges) :=
  match previous with
  | none => current.map (fun r => (r.symbol, zeroChanges r.symbol))
  | some prev =>
      if prev.isEmpty then current.map (fun r => (r.symbol, zeroChanges r.symbol))
      else
        current.map (fun r =>
          match prev.find? (fun p => p.symbol == r.symbol) with
          | none => (r.symbol, zeroChanges r.symbol)
          | some p =>
              (r.symbol,
               { symbol := r.symbol,
                 volume_rank_change := (p.volume_rank : ℤ) - r.volume_rank,
                 momentum_rank_change := (p.momentum_rank : ℤ) - r.momentum_rank,
                 total_pct_rank_change :=
                   (p.total_pct_rank : ℤ) - r.total_pct_rank,
                 zscore_rank_change := (p.zscore_rank : ℤ) - r.zscore_rank,
                 price_rank_change := (p.price_rank : ℤ) - r.price_rank,
                 overall_rank_change := (p.overall_rank : ℤ) - r.overall_rank }))

/-! ### The per-bar computation of `BacktestEngine.run_backtest` -/

/-- The truncation performed at bar `idx` of the backtest loop:
`{symbol: data[:idx+1] for symbol, data in historical_data.items()
if len(data) > idx}`. -/
def currentData (historical_data : List (String × List Candle)) (idx : ℕ) :
    List (String × List Candle) :=
  (historical_data.filter (fun sd => decide (idx < sd.2.length))).map
    (fun sd => (sd.1, sd.2.take (idx + 1)))

/-- Metrics computed by the backtest at bar `idx`. -/
def metricsAtBar (ops : FloatOps) (historical_data : List (String × List Candle))
    (idx : ℕ) : List MetricRecord :=
  calculateAllMetrics ops (currentData historical_data idx)

/-- Rankings computed by the backtest at bar `idx`. -/
def rankingsAtBar (ops : FloatOps) (historical_data : List (String × List Candle))
    (idx : ℕ) : List RankingRecord :=
  calculateRankings (metricsAtBar ops historical_data idx)

/-! ### Opportunity detector (`analysis/opportunities.py`) -/

/-- Python truthiness of an optional boolean (`None` is falsy). -/
def truthy (o : Option Bool) : Bool := o.getD false

/-- A rankings snapshot as handed to the detector: the symbol-keyed
dictionary of `RankingRecord`s. -/
def RankingsMap : Type := List (String × RankingRecord)

/-- `rankings.get(symbol, {}).get('overall_rank', 999)`. -/
def getOverallRank (rk : RankingsMap) (s : String) : ℕ :=
  match List.lookup s rk with
  | some r => r.overall_rank
  | none => 999

/-- `rankings.get(symbol, {}).get(metric_rank_field, 0)`. -/
def getRankField (rk : RankingsMap) (s : String) (f : RankingRecord → ℕ) : ℕ :=
  match List.lookup s rk with
  | some r => f r
  | none => 0

/-- The five per-metric rank fields summed by the movement checks. -/
def rankFields : List (RankingRecord → ℕ) :=
  [RankingRecord.volume_rank, RankingRecord.momentum_rank,
   RankingRecord.total_pct_rank, RankingRecord.zscore_rank,
   RankingRecord.price_rank]

/-- Detector state: per-direction dedup sets, last reset time, bounded
ranking history (each entry is `(timestamp, rankings)`). -/
structure DetectorState where
  detected_long : List String
  detected_short : List String
  last_detection_time : Option ℤ
  ranking_history : List (ℤ × RankingsMap)

/-- `OpportunityDetector.add_ranking_history`: append and evict the oldest
entry once more than 10 are stored. -/
def addRankingHistory (history : List (ℤ × RankingsMap)) (now : ℤ)
    (rankings : RankingsMap) : List (ℤ × RankingsMap) :=
  let h := history ++ [(now, rankings)]
  if 10 < h.length then h.drop 1 else h

/-- `OpportunityDetector.reset_detection_state`: clear the dedup sets and
restart the clock when more than 3600 seconds have elapsed since the last
reset (or on the first call). -/
def resetDetectionState (st : DetectorState) (now : ℤ) : DetectorState :=
  match st.last_detection_time with
  | none =>
      { st with
        detected_long := []
        detected_short := []
        last_detection_time := some now }
  | some t =>
      if 3600 < now - t then
        { st with
          detected_long := []
          detected_short := []
          last_detection_time := some now }
      else st

/-- The backward scan of `_check_ranking_movement_for_long` over the history
entries older than the current one (most recent first): the first entry
within 180 seconds whose rank was in `(20, 40]` decides the outcome via the
summed per-metric rank improvement. -/
def scanLongHist (sym : String) (current_time : ℤ) (cur : RankingsMap) :
    List (ℤ × RankingsMap) → Bool
  | [] => false
  | (ht, hrk) :: rest =>
      if current_time - ht ≤ 3 * 60 then
        let previous_rank := getOverallRank hrk sym
        if 20 < previous_rank ∧ previous_rank ≤ 40 then
          let total_rank_improvement : ℤ := rankFields.foldl
            (fun acc f =>
              acc + ((getRankField hrk sym f : ℤ) - (getRankField cur sym f : ℤ))) 0
          decide (50 < total_rank_improvement)
        else scanLongHist sym current_time cur rest
      else scanLongHist sym current_time cur rest

/-- `_check_ranking_movement_for_long`. -/
def checkRankingMovementForLong (history : List (ℤ × RankingsMap))
    (sym : String) : Bool :=
  if history.length < 2 then false
  else
    match history.getLast? with
    | none => false
    | some (current_time, current_rankings) =>
        let current_overall_rank := getOverallRank current_rankings sym
        if 20 < current_overall_rank then false
        else scanLongHist sym current_time current_rankings
          history.dropLast.reverse

/-- The backward scan of `_check_ranking_movement_for_short`. -/
def scanShortHist (sym : String) (current_time : ℤ) (cur : RankingsMap) :
    List (ℤ × RankingsMap) → Bool
  | [] => false
  | (ht, hrk) :: rest =>
      if current_time - ht ≤ 3 * 60 then
        let previous_rank := getOverallRank hrk sym
        if previous_rank ≤ 20 then
          let total_rank_degradation : ℤ := rankFields.foldl
            (fun acc f =>
              acc + ((getRankField cur sym f : ℤ) - (getRankField hrk sym f : ℤ))) 0
          decide (50 < total_rank_degradation)
        else scanShortHist sym current_time cur rest
      else scanShortHist sym current_time cur rest

/-- `_check_ranking_movement_for_short`. -/
def checkRankingMovementForShort (history : List (ℤ × RankingsMap))
    (sym : String) : Bool :=
  if history.length < 2 then false
  else
    match history.getLast? with
    | none => false
    | some (current_time, current_rankings) =>
        let current_overall_rank := getOverallRank current_rankings sym
        if current_overall_rank ≤ 20 ∨ 40 < current_overall_rank then false
        else scanShortHist sym current_time current_rankings
          history.dropLast.reverse

/-- `_is_long_opportunity`: reject symbols already in the dedup set, then
check the ranking movement. -/
def isLongOpportunity (detected_long : List String)
    (history : List (ℤ × RankingsMap)) (sym : String) : Bool :=
  if sym ∈ detected_long then false
  else checkRankingMovementForLong history sym

/-- `_is_short_opportunity`. -/
def isShortOpportunity (detected_short : List String)
    (history : List (ℤ × RankingsMap)) (sym : String) : Bool :=
  if sym ∈ detected_short then false
  else checkRankingMovementForShort history sym

/-- `OpportunityDetector._calculate_opportunity_strength` (the live scoring
function, driven by the configured thresholds). -/
def calculateOpportunityStrength (ranking : RankingRecord)
    (changes : RankChanges) (metrics : MetricRecord) (direction : Direction) :
    ℚ :=
  let score : ℚ := 50
  let volume_metric := metrics.volume_metric
  let volume_score :=
    if direction = .long then
      min (volume_metric / THRESHOLD_volume * (15/2)) 15
    else
      let inverse_vol := 1 / max volume_metric (1/100)
      min (inverse_vol / THRESHOLD_volume * (15/2)) 15
  let score := score + volume_score
  let momentum_metric := metrics.momentum_metric
  let momentum_score := min (|momentum_metric| / THRESHOLD_momentum * (15/2)) 15
  let score :=
    if (direction = .long ∧ 0 < momentum_metric) ∨
        (direction = .short ∧ momentum_metric < 0) then
      score + momentum_score
    else score
  let price_metric := metrics.price_metric
  let price_score := min (price_metric / THRESHOLD_price * 10) 20
  let score := score + price_score
  let rank_change_multiplier : ℤ := if direction = .long then 1 else -1
  let rank_change_value := changes.overall_rank_change * rank_change_multiplier
  let score :=
    if 0 < rank_change_value then
      score + min ((rank_change_value : ℚ) / THRESHOLD_rank_change * (15/2)) 15
    else score
  let zscore_multiplier : ℚ := if direction = .long then 1 else -1
  let zscore_value := metrics.zscore_metric * zscore_multiplier
  let score :=
    if 0 < zscore_value then
      score + min (zscore_value / THRESHOLD_zscore * (15/2)) 15
    else score
  let score :=
    match ranking.in_uptrend with
    | none => score
    | some u =>
        if (direction = .long ∧ u) ∨ (direction = .short ∧ ¬u) then score + 20
        else score
  min score 100

/-- One emitted live opportunity record. -/
structure LiveOpp where
  symbol : String
  current_price : ℚ
  volume_metric : ℚ
  momentum_metric : ℚ
  zscore_metric : ℚ
  price_metric : ℚ
  overall_rank : ℕ
  rank_change : ℤ
  opportunity_strength : ℚ
  detection_time : ℤ
deriving DecidableEq, Repr

/-- Build the emitted record for a symbol. -/
def mkLiveOpp (sym : String) (ranking : RankingRecord) (changes : RankChanges)
    (metric : MetricRecord) (now : ℤ) (direction : Direction) : LiveOpp :=
  { symbol := sym,
    current_price := metric.price,
    volume_metric := metric.volume_metric,
    momentum_metric := metric.momentum_metric,
    zscore_metric := metric.zscore_metric,
    price_metric := metric.price_metric,
    overall_rank := ranking.overall_rank,
    rank_change := changes.overall_rank_change,
    opportunity_strength := calculateOpportunityStrength ranking changes metric direction,
    detection_time := now }

/-- The per-symbol loop of `detect_opportunities`, threading the dedup sets
(the source adds a symbol to the set in the same iteration that emits it). -/
def detectLoop (history : List (ℤ × RankingsMap)) (now : ℤ)
    (changes_map : List (String × RankChanges))
    (metrics_map : List (String × MetricRecord)) :
    List (String × RankingRecord) → List String → List String →
    List LiveOpp → List LiveOpp →
    List String × List String × List LiveOpp × List LiveOpp
  | [], detL, detS, accL, accS => (detL, detS, accL, accS)
  | (sym, ranking) :: rest, detL, detS, accL, accS =>
      let changes := (List.lookup sym changes_map).getD (zeroChanges sym)
      let metric := (List.lookup sym metrics_map).getD defaultMetricRecord
      let emitL := isLongOpportunity detL history sym
      let detL2 := if emitL then detL ++ [sym] else detL
      let accL2 :=
        if emitL then accL ++ [mkLiveOpp sym ranking changes metric now .long]
        else accL
      let emitS := isShortOpportunity detS history sym
      let detS2 := if emitS then detS ++ [sym] else detS
      let accS2 :=
        if emitS then accS ++ [mkLiveOpp sym ranking changes metric now .short]
        else accS
      detectLoop history now changes_map metrics_map rest detL2 detS2 accL2 accS2

/-- The `current` lists returned by one detection cycle (the source also
repeats them verbatim under the `historical` key). -/
structure DetectOutput where
  current_long : List LiveOpp
  current_short : List LiveOpp
deriving Repr

/-- One detector input cycle: the wall-clock time and the rankings,
ranking-changes and metrics dictionaries. -/
structure CycleInput where
  now : ℤ
  rankings : List (String × RankingRecord)
  ranking_changes : List (String × RankChanges)
  metrics : List (String × MetricRecord)

/-- The stable descending sort by opportunity strength applied to each
emitted list. -/
def sortByStrength (l : List LiveOpp) : List LiveOpp :=
  l.mergeSort (fun a b =>
    decide (b.opportunity_strength ≤ a.opportunity_strength))

/-- `OpportunityDetector.detect_opportunities` as a state transition:
append to the history, reset the dedup state if due, run the per-symbol
loop and sort each list by strength (descending, stable). -/
def detectStep (st : DetectorState) (c : CycleInput) :
    DetectorState × DetectOutput :=
  let st2 := resetDetectionState
    { st with ranking_history :=
        addRankingHistory st.ranking_history c.now c.rankings } c.now
  let r := detectLoop st2.ranking_history c.now c.ranking_changes c.metrics
    c.rankings st2.detected_long st2.detected_short [] []
  ({ st2 with detected_long := r.1, detected_short := r.2.1 },
   { current_long := sortByStrength r.2.2.1,
     current_short := sortByStrength r.2.2.2 })

/-- Run the detector over a sequence of cycles, collecting the outputs. -/
def runDetector (st : DetectorState) : List CycleInput → List DetectOutput
  | [] => []
  | c :: cs =>
      let r := detectStep st c
      r.2 :: runDetector r.1 cs

/-- The dedup set for a direction. -/
def DetectorState.detectedOf (st : DetectorState) : Direction → List String
  | .long => st.detected_long
  | .short => st.detected_short

/-- The emitted current list for a direction. -/
def DetectOutput.currentOf (out : DetectOutput) : Direction → List LiveOpp
  | .long => out.current_long
  | .short => out.current_short

/-! ### Backtest engine (`backtest/engine.py`) -/

/-- Running PnL percentage of an open position. -/
def pnlPct (direction : Direction) (entry_price current_price : ℚ) : ℚ :=
  match direction with
  | .long => ((current_price - entry_price) / entry_price) * 100
  | .short => ((entry_price - current_price) / entry_price) * 100

/-- One simulated trade record. -/
structure Trade where
  symbol : String
  direction : Direction
  entryPrice : ℚ
  entryTime : ℤ
  exitPrice : ℚ
  exitTime : ℤ
  exitReason : ExitReason
  pnl : ℚ
  bars_held : ℕ
deriving DecidableEq, Repr

/-- The exit-scanning loop of `_simulate_single_trade` over the future bars,
carrying the enumeration index `i`: break on the first take-profit or
stop-loss hit, and on the last bar exit with `max_duration` if nothing
triggered. -/
def findExit (direction : Direction) (entry_price take_profit stop_loss : ℚ) :
    List Candle → ℕ → Option (Candle × ExitReason × ℕ)
  | [], _ => none
  | bar :: rest, i =>
      let pnl_pct := pnlPct direction entry_price bar.close
      if take_profit ≤ pnl_pct then some (bar, .take_profit, i + 1)
      else if pnl_pct ≤ -stop_loss then some (bar, .stop_loss, i + 1)
      else
        match rest with
        | [] => some (bar, .max_duration, i + 1)
        | _ :: _ => findExit direction entry_price take_profit stop_loss rest (i + 1)

/-- The future-bar window `symbol_data[entry_bar_idx+1 : entry_bar_idx+max_bars+1]`. -/
def futureBars (symbol_data : List Candle) (entry_bar_idx max_bars : ℕ) :
    List Candle :=
  (symbol_data.drop (entry_bar_idx + 1)).take max_bars

/-- `BacktestEngine._simulate_single_trade`. -/
def simulateSingleTrade (symbol_data : List Candle) (symbol : String)
    (direction : Direction) (entry_bar_idx : ℕ) (entry_price : ℚ)
    (entry_time : ℤ) (take_profit stop_loss : ℚ) (max_bars : ℕ) :
    Option Trade :=
  let future_bars := futureBars symbol_data entry_bar_idx max_bars
  if future_bars.isEmpty then none
  else
    match findExit direction entry_price take_profit stop_loss future_bars 0 with
    | none => none
    | some (exit_bar, exit_reason, bars_held) =>
        let exit_price := exit_bar.close
        let pnl := pnlPct direction entry_price exit_price
        some
          { symbol := symbol, direction := direction,
            entryPrice := entry_price, entryTime := entry_time,
            exitPrice := exit_price, exitTime := exit_bar.timestamp,
            exitReason := exit_reason, pnl := pnl, bars_held := bars_held }

/-- One backtest opportunity candidate entry. -/
structure BTOpp where
  symbol : String
  bar_idx : ℕ
  current_price : ℚ
  volume_metric : ℚ
  momentum_metric : ℚ
  zscore_metric : ℚ
  price_metric : ℚ
  overall_rank : ℕ
  rank_change : ℤ
  opportunity_strength : ℚ
deriving DecidableEq, Repr

/-- `BacktestEngine._calculate_opportunity_strength` (the backtest-specific
scoring function with rank-tier, momentum-magnitude, rank-change-magnitude
and trend-match bonuses). -/
def engineOpportunityStrength (ranking : RankingRecord) (changes : RankChanges)
    (metrics : MetricRecord) (direction : Direction) : ℚ :=
  let score : ℚ := 50
  let overall_rank := ranking.overall_rank
  let score :=
    if direction = .long then
      if overall_rank ≤ 10 then score + 20
      else if overall_rank ≤ 20 then score + 10
      else if overall_rank ≤ 30 then score + 5
      else score
    else
      if 20 < overall_rank ∧ overall_rank ≤ 25 then score + 20
      else if 25 < overall_rank ∧ overall_rank ≤ 30 then score + 15
      else if 30 < overall_rank ∧ overall_rank ≤ 40 then score + 10
      else score
  let momentum := metrics.momentum_metric
  let score :=
    if (direction = .long ∧ 0 < momentum) ∨ (direction = .short ∧ momentum < 0) then
      let momentum_abs := |momentum|
      if 1/2 < momentum_abs then score + 15
      else if 3/10 < momentum_abs then score + 10
      else if 1/10 < momentum_abs then score + 5
      else score
    else score
  let rank_change := changes.overall_rank_change
  let score :=
    if (direction = .long ∧ 0 < rank_change) ∨
        (direction = .short ∧ rank_change < 0) then
      let rank_change_abs := |rank_change|
      if 10 ≤ rank_change_abs then score + 15
      else if 5 ≤ rank_change_abs then score + 10
      else if 2 ≤ rank_change_abs then score + 5
      else score
    else score
  let in_uptrend := ranking.in_uptrend
  let score :=
    if (direction = .long ∧ truthy in_uptrend) ∨
        (direction = .short ∧ ¬truthy in_uptrend) then score + 10
    else score
  min score 100

/-- Build one backtest candidate record. -/
def mkBTOpp (ranking : RankingRecord) (changes : RankChanges)
    (metric : MetricRecord) (bar_idx : ℕ) (direction : Direction) : BTOpp :=
  { symbol := ranking.symbol,
    bar_idx := bar_idx,
    current_price := metric.price,
    volume_metric := metric.volume_metric,
    momentum_metric := metric.momentum_metric,
    zscore_metric := metric.zscore_metric,
    price_metric := metric.price_metric,
    overall_rank := ranking.overall_rank,
    rank_change := changes.overall_rank_change,
    opportunity_strength := engineOpportunityStrength ranking changes metric direction }

/-- The long entry test of `_detect_opportunities`: good rank, improving
rank, positive momentum. -/
def engineLongCandidate (ranking_changes : List (String × RankChanges))
    (metrics : List MetricRecord) (bar_idx : ℕ) (ranking : RankingRecord) :
    Option BTOpp :=
  let changes := (List.lookup ranking.symbol ranking_changes).getD
    (zeroChanges ranking.symbol)
  let metric := (metrics.find? (fun m => m.symbol == ranking.symbol)).getD
    defaultMetricRecord
  if ranking.overall_rank ≤ 20 ∧ 0 < changes.overall_rank_change ∧
      0 < metric.momentum_metric then
    some (mkBTOpp ranking changes metric bar_idx .long)
  else none

/-- The short entry test of `_detect_opportunities`: rank in `(20, 40]`,
worsening rank, negative momentum. -/
def engineShortCandidate (ranking_changes : List (String × RankChanges))
    (metrics : List MetricRecord) (bar_idx : ℕ) (ranking : RankingRecord) :
    Option BTOpp :=
  let changes := (List.lookup ranking.symbol ranking_changes).getD
    (zeroChanges ranking.symbol)
  let metric := (metrics.find? (fun m => m.symbol == ranking.symbol)).getD
    defaultMetricRecord
  if 20 < ranking.overall_rank ∧ ranking.overall_rank ≤ 40 ∧
      changes.overall_rank_change < 0 ∧ metric.momentum_metric < 0 then
    some (mkBTOpp ranking changes metric bar_idx .short)
  else none

/-- `BacktestEngine._detect_opportunities`: the simplified backtest entry
criteria, each list sorted by strength (descending, stable). -/
def engineDetect (rankings : List RankingRecord)
    (ranking_changes : List (String × RankChanges))
    (metrics : List MetricRecord) (bar_idx : ℕ) : List BTOpp × List BTOpp :=
  let long_opportunities :=
    rankings.filterMap (engineLongCandidate ranking_changes metrics bar_idx)
  let short_opportunities :=
    rankings.filterMap (engineShortCandidate ranking_changes metrics bar_idx)
  (long_opportunities.mergeSort (fun a b =>
     decide (b.opportunity_strength ≤ a.opportunity_strength)),
   short_opportunities.mergeSort (fun a b =>
     decide (b.opportunity_strength ≤ a.opportunity_strength)))

/-- The bar loop of `run_backtest`: at each bar truncate the data, recompute
metrics, rankings and ranking-changes (against the previous bar's rankings),
detect opportunities and accumulate them in detection order. -/
def barLoop (ops : FloatOps) (historical_data : List (String × List Candle)) :
    List ℕ → Option (List RankingRecord) → List BTOpp → List BTOpp →
    List BTOpp × List BTOpp
  | [], _, accL, accS => (accL, accS)
  | idx :: rest, previous_rankings, accL, accS =>
      let metrics := metricsAtBar ops historical_data idx
      let rankings := calculateRankings metrics
      let ranking_changes := calculateRankingChanges rankings previous_rankings
      let opps := engineDetect rankings ranking_changes metrics idx
      barLoop ops historical_data rest (some rankings) (accL ++ opps.1)
        (accS ++ opps.2)

/-- Process one candidate entry of `_simulate_trades`: skip symbols with too
little data, otherwise read the entry bar and simulate the trade. -/
def processOpp (historical_data : List (String × List Candle))
    (direction : Direction) (take_profit stop_loss : ℚ) (max_bars : ℕ)
    (opp : BTOpp) : Option Trade :=
  match List.lookup opp.symbol historical_data with
  | none => none
  | some data =>
      if data.length ≤ opp.bar_idx then none
      else
        let entry_bar := data.getD opp.bar_idx dummyCandle
        simulateSingleTrade data opp.symbol direction opp.bar_idx
          entry_bar.close entry_bar.timestamp take_profit stop_loss max_bars

/-- `BacktestEngine._simulate_trades`. -/
def simulateTrades (historical_data : List (String × List Candle))
    (long_opps short_opps : List BTOpp) (take_profit stop_loss : ℚ)
    (max_bars : ℕ) : List Trade × List Trade :=
  (long_opps.filterMap (processOpp historical_data .long take_profit stop_loss max_bars),
   short_opps.filterMap (processOpp historical_data .short take_profit stop_loss max_bars))

/-- Per-direction summary statistics. -/
structure DirectionSummary where
  totalTrades : ℕ
  winningTrades : ℕ
  losingTrades : ℕ
  winRate : ℚ
  averagePnl : ℚ
  totalPnl : ℚ
  maxProfit : ℚ
  maxLoss : ℚ
  avgBarsHeld : ℚ
  startTimestamp : ℤ
  endTimestamp : ℤ
deriving DecidableEq, Repr

/-- Python `min(list or [0])`. -/
def minD (l : List ℤ) : ℤ :=
  match l with
  | [] => 0
  | x :: xs => xs.foldl min x

/-- Python `max(list or [0])`. -/
def maxD (l : List ℤ) : ℤ :=
  match l with
  | [] => 0
  | x :: xs => xs.foldl max x

/-- Python `max` over a non-empty rational list (`0` fallback mirrors the
`if pnl_values else 0.0` guard). -/
def maxQ (l : List ℚ) : ℚ :=
  match l with
  | [] => 0
  | x :: xs => xs.foldl max x

/-- Python `min` over a non-empty rational list. -/
def minQ (l : List ℚ) : ℚ :=
  match l with
  | [] => 0
  | x :: xs => xs.foldl min x

/-- `BacktestEngine._calculate_direction_summary`. -/
def calculateDirectionSummary (results : List Trade) (start_time end_time : ℤ) :
    DirectionSummary :=
  if results.isEmpty then
    { totalTrades := 0, winningTrades := 0, losingTrades := 0, winRate := 0,
      averagePnl := 0, totalPnl := 0, maxProfit := 0, maxLoss := 0,
      avgBarsHeld := 0, startTimestamp := start_time, endTimestamp := end_time }
  else
    let pnl_values := results.map Trade.pnl
    let winning_trades := (pnl_values.filter (fun p => decide (0 < p))).length
    let losing_trades := (pnl_values.filter (fun p => decide (p ≤ 0))).length
    let win_rate := ((winning_trades : ℚ) / results.length) * 100
    let average_pnl := pnl_values.sum / pnl_values.length
    let total_pnl := pnl_values.sum
    let max_profit := maxQ pnl_values
    let max_loss := minQ pnl_values
    let avg_bars_held :=
      ((results.map (fun r => (r.bars_held : ℚ))).sum) / results.length
    { totalTrades := results.length, winningTrades := winning_trades,
      losingTrades := losing_trades, winRate := win_rate,
      averagePnl := average_pnl, totalPnl := total_pnl,
      maxProfit := max_profit, maxLoss := max_loss,
      avgBarsHeld := avg_bars_held, startTimestamp := start_time,
      endTimestamp := end_time }

/-- The full backtest summary. -/
structure Summary where
  backtest_id : String
  timeframe : String
  long : DirectionSummary
  short : DirectionSummary
  combined : DirectionSummary
deriving DecidableEq, Repr

/-- `BacktestEngine._calculate_summary_statistics`. -/
def calculateSummaryStatistics (backtest_id timeframe : String)
    (long_results short_results : List Trade) : Summary :=
  let all_results := long_results ++ short_results
  let start_time := minD (all_results.map Trade.entryTime)
  let end_time := maxD (all_results.map Trade.exitTime)
  { backtest_id := backtest_id, timeframe := timeframe,
    long := calculateDirectionSummary long_results start_time end_time,
    short := calculateDirectionSummary short_results start_time end_time,
    combined := calculateDirectionSummary all_results start_time end_time }

/-- The dictionary returned by `run_backtest`. -/
structure BacktestResult where
  long : List Trade
  short : List Trade
  summary : Option Summary
deriving Repr

/-- `max(len(data) for data in historical_data.values())`, `0` when empty. -/
def maxLen (historical_data : List (String × List Candle)) : ℕ :=
  (historical_data.map (fun sd => sd.2.length)).foldr max 0

/-- The invalid bar range rejected by `run_backtest`
(`start_idx >= end_idx or start_idx < 0 or end_idx >= max_len`, with
`end_idx` defaulting to `max_len - 1`). -/
def invalidRange (historical_data : List (String × List Candle))
    (start_idx : ℤ) (end_idx? : Option ℤ) : Prop :=
  let max_len := maxLen historical_data
  let end_idx := end_idx?.getD ((max_len : ℤ) - 1)
  end_idx ≤ start_idx ∨ start_idx < 0 ∨ (max_len : ℤ) ≤ end_idx

instance (hd : List (String × List Candle)) (s : ℤ) (e : Option ℤ) :
    Decidable (invalidRange hd s e) := by
  unfold invalidRange
  infer_instance

/-- `BacktestEngine.run_backtest` (take-profit, stop-loss and max-bars are
the already-resolved parameters; the generated backtest id is passed in). -/
def runBacktest (ops : FloatOps) (backtest_id : String)
    (historical_data : List (String × List Candle)) (timeframe : String)
    (start_idx : ℤ) (end_idx? : Option ℤ) (take_profit stop_loss : ℚ)
    (max_bars : ℕ) : BacktestResult :=
  let max_len := maxLen historical_data
  let end_idx := end_idx?.getD ((max_len : ℤ) - 1)
  if end_idx ≤ start_idx ∨ start_idx < 0 ∨ (max_len : ℤ) ≤ end_idx then
    { long := [], short := [], summary := none }
  else
    let bars := List.range' start_idx.toNat (end_idx.toNat - start_idx.toNat + 1)
    let opps := barLoop ops historical_data bars none [] []
    let trades := simulateTrades historical_data opps.1 opps.2 take_profit
      stop_loss max_bars
    { long := trades.1, short := trades.2,
      summary := some (calculateSummaryStatistics backtest_id timeframe
        trades.1 trades.2) }

/-! ### Specification-side definitions

These definitions follow the wording of the specification (not the source);
the theorems below compare them with the source embedding. -/

/-- Specification wording: a future bar triggers an exit when the running
pnl percent reaches the take-profit or falls to the negated stop-loss. -/
def hitBar (direction : Direction) (entry_price take_profit stop_loss : ℚ)
    (b : Candle) : Bool :=
  decide (take_profit ≤ pnlPct direction entry_price b.close) ||
  decide (pnlPct direction entry_price b.close ≤ -stop_loss)

/-- Specification wording of the exit rule: exit at the first future bar
whose running pnl triggers take-profit or stop-loss; if none triggers, exit
at the last scanned bar with reason `max_duration`; no exit at all when
there are no future bars. -/
def exitSpec (direction : Direction) (entry_price take_profit stop_loss : ℚ)
    (fb : List Candle) : Option (Candle × ExitReason × ℕ) :=
  match fb.findIdx? (hitBar direction entry_price take_profit stop_loss) with
  | some j =>
      (fb.get? j).map (fun b =>
        (b,
         if take_profit ≤ pnlPct direction entry_price b.close then
           ExitReason.take_profit
         else ExitReason.stop_loss,
         j + 1))
  | none => fb.getLast?.map (fun b => (b, ExitReason.max_duration, fb.length))

/-! ### Concrete inputs used by counterexamples and witnesses -/

/-- A flat candle: all four prices equal to `v`. -/
def flatCandle (t : ℤ) (v : ℚ) : Candle :=
  { timestamp := t, opn := v, high := v, low := v, close := v, volume := 0 }

/-- The candle sequence of the spec's exit-timing scenario: entry close 100,
forward closes `[100.5, 98.4, 103.2]`. -/
def scenarioData : List Candle :=
  [flatCandle 0 100, flatCandle 1 (201/2), flatCandle 2 (492/5),
   flatCandle 3 (516/5)]

/-! ### C7: live opportunity strength bounds -/

/-- A ranking record with neutral fields and `in_uptrend = False`. -/
def c7Ranking : RankingRecord :=
  { symbol := "S", price := 0, volume_metric := 0, volume_rank := 1,
    momentum_metric := 0, momentum_rank := 1, total_pct_change := 0,
    total_pct_rank := 1, zscore_metric := 0, zscore_rank := 1,
    price_metric := 0, price_rank := 1, total_score := 5,
    in_uptrend := some false, overall_rank := 1 }

/-- A metric record whose only nonzero field is `price_metric = -30`. -/
def c7Metrics : MetricRecord :=
  { symbol := "S", volume_metric := 0, momentum_metric := 0,
    total_pct_change := 0, zscore_metric := 0, price_metric := -30,
    price := 0, in_uptrend := some false }

/-- A winning sample trade. -/
def c10win : Trade :=
  { symbol := "A", direction := .long, entryPrice := 100, entryTime := 0,
    exitPrice := 103, exitTime := 1, exitReason := .take_profit, pnl := 3,
    bars_held := 1 }

/-- A zero-pnl sample trade (counted as losing). -/
def c10zero : Trade :=
  { symbol := "B", direction := .long, entryPrice := 100, entryTime := 0,
    exitPrice := 100, exitTime := 1, exitReason := .max_duration, pnl := 0,
    bars_held := 1 }

/-- A losing sample trade. -/
def c10loss : Trade :=
  { symbol := "C", direction := .short, entryPrice := 100, entryTime := 0,
    exitPrice := 102, exitTime := 1, exitReason := .stop_loss, pnl := -2,
    bars_held := 1 }

/-- The identity implementations of the abstracted float operations, used
for concrete witnesses. -/
def opsId : FloatOps := ⟨fun q => q, fun q => q⟩

/-- Data set 1 for the C1 witness. -/
def c1Data1 : List (String × List Candle) :=
  [("A", [flatCandle 0 1, flatCandle 1 2, flatCandle 2 3])]

/-- Data set 2 for the C1 witness: same candles up to index 1, a different
candle after it. -/
def c1Data2 : List (String × List Candle) :=
  [("A", [flatCandle 0 1, flatCandle 1 2, flatCandle 2 7])]

/-! ### C2 and C8: structure of the tie-aware ranks

Specification-side definitions: the sorted list of composite scores, and the
tie-aware rank of a value (1-based position of the first member of its tied
group in sorted order). -/

/-- Sorted (ascending) list of the composite total scores of a rankings
output. -/
def sortedTotalScores (rs : List RankingRecord) : List ℚ :=
  (rs.map (fun r => ((r.total_score : ℚ)))).mergeSort (fun a b => decide (a ≤ b))

/-- Specification wording of a tie-aware rank: one plus the index of the
first occurrence of the value in the sorted score list. -/
def tieRank (ss : List ℚ) (v : ℚ) : ℕ :=
  ss.findIdx (fun x => x == v) + 1

/-- The composite score of a ranking record, as the rational sort key used
by the overall ranking. -/
def scoreOf (r : RankingRecord) : ℚ := ((r.total_score : ℚ))

/-- The ascending comparison on composite scores used to sort for the
overall rank. -/
def leScore (a b : RankingRecord) : Bool := decide (scoreOf a ≤ scoreOf b)

/-- Witness metric record A (top volume). -/
def c2mA : MetricRecord :=
  { symbol := "A", volume_metric := 2, momentum_metric := 1,
    total_pct_change := 1, zscore_metric := 1, price_metric := 1, price := 1,
    in_uptrend := some true }

/-- Witness metric record B (tied with C except volume/momentum). -/
def c2mB : MetricRecord :=
  { symbol := "B", volume_metric := 1, momentum_metric := 1,
    total_pct_change := 1, zscore_metric := 1, price_metric := 1, price := 1,
    in_uptrend := some true }

/-- Witness metric record C (top momentum). -/
def c2mC : MetricRecord :=
  { symbol := "C", volume_metric := 1, momentum_metric := 2,
    total_pct_change := 1, zscore_metric := 1, price_metric := 1, price := 1,
    in_uptrend := some true }

/-- The witness metrics mapping: A and C tie on total score 6 (both get
overall rank 1) while B scores 7 and gets rank 3, not 2. -/
def c2Metrics : List MetricRecord := [c2mA, c2mB, c2mC]

/-- A witness ranking record with the given overall rank and the same value
for all five per-metric ranks. -/
def c6Rank (s : String) (overall vr : ℕ) : RankingRecord :=
  { symbol := s, price := 0, volume_metric := 0, volume_rank := vr,
    momentum_metric := 0, momentum_rank := vr, total_pct_change := 0,
    total_pct_rank := vr, zscore_metric := 0, zscore_rank := vr,
    price_metric := 0, price_rank := vr, total_score := 5 * vr,
    in_uptrend := some true, overall_rank := overall }

/-- Previous snapshot: BTCUSDT ranked 30 with per-metric ranks 15. -/
def c6PrevRk : RankingsMap := [("BTCUSDT", c6Rank "BTCUSDT" 30 15)]

/-- Current snapshot: BTCUSDT ranked 5 with per-metric ranks 1 (a
qualifying movement: improvement 70 > 50 within 180 seconds). -/
def c6CurRk : RankingsMap := [("BTCUSDT", c6Rank "BTCUSDT" 5 1)]

/-- Initial detector state with one historical snapshot at time 0. -/
def c6St0 : DetectorState :=
  { detected_long := [], detected_short := [], last_detection_time := none,
    ranking_history := [(0, c6PrevRk)] }

/-- First cycle at time 100 (emits BTCUSDT long). -/
def c6c1 : CycleInput :=
  { now := 100, rankings := c6CurRk, ranking_changes := [], metrics := [] }

/-- Second cycle at time 200 (same qualifying rankings, within 3600 s). -/
def c6c2 : CycleInput :=
  { now := 200, rankings := c6CurRk, ranking_changes := [], metrics := [] }

/-! ### C3: the exit rule of `_simulate_single_trade` -/

theorem findExit_eq_exitSpec (direction : Direction)
    (entry_price take_profit stop_loss : ℚ) (fb : List Candle) :
    ∀ i : ℕ,
      findExit direction entry_price take_profit stop_loss fb i =
        (exitSpec direction entry_price take_profit stop_loss fb).map
          (fun x => (x.1, x.2.1, i + x.2.2)) := by
  induction fb with
  | nil => intro i; simp [findExit, exitSpec]
  | cons bar rest ih =>
      intro i
      by_cases h1 : take_profit ≤ pnlPct direction entry_price bar.close
      · simp [findExit, exitSpec, List.findIdx?_cons, hitBar, h1, Nat.add_comm]
      · by_cases h2 : pnlPct direction entry_price bar.close ≤ -stop_loss
        · simp [findExit, exitSpec, List.findIdx?_cons, hitBar, h1, h2,
            Nat.add_comm]
        · match rest with
          | [] =>
              simp [findExit, exitSpec, List.findIdx?_cons, hitBar, h1, h2,
                Nat.add_comm]
          | c :: cs =>
              rw [show findExit direction entry_price take_profit stop_loss
                  (bar :: c :: cs) i =
                  findExit direction entry_price take_profit stop_loss
                    (c :: cs) (i + 1) by
                simp [findExit, h1, h2]]
              rw [ih (i + 1)]
              rcases hfi : List.findIdx?
                  (hitBar direction entry_price take_profit stop_loss)
                  (c :: cs) with _ | j
              · simp [exitSpec, List.findIdx?_cons, hitBar, h1, h2,
                  List.findIdx?_succ, hfi, List.getLast?_cons_cons]
                congr 1
                funext b
                simp [Function.comp]
                omega
              · simp [exitSpec, List.findIdx?_cons, hitBar, h1, h2,
                  List.findIdx?_succ, hfi]
                congr 1
                funext b
                simp [Function.comp]
                omega

/-- C3.  For every trade simulation, `_simulate_single_trade` realises the
specified exit rule exactly: with zero future candles it produces no trade
record, and otherwise it exits at the first future bar (within `max_bars`
bars after the entry bar) whose running pnl percent reaches `take_profit`
(reason `take_profit`) or `-stop_loss` (reason `stop_loss`), and at the last
scanned bar with reason `max_duration` when neither triggers. -/
theorem simulate_single_trade_exit_rule (symbol_data : List Candle)
    (symbol : String) (direction : Direction) (entry_bar_idx : ℕ)
    (entry_price : ℚ) (entry_time : ℤ) (take_profit stop_loss : ℚ)
    (max_bars : ℕ) :
    simulateSingleTrade symbol_data symbol direction entry_bar_idx entry_price
        entry_time take_profit stop_loss max_bars =
      (exitSpec direction entry_price take_profit stop_loss
          (futureBars symbol_data entry_bar_idx max_bars)).map
        (fun x =>
          { symbol := symbol, direction := direction,
            entryPrice := entry_price, entryTime := entry_time,
            exitPrice := x.1.close, exitTime := x.1.timestamp,
            exitReason := x.2.1,
            pnl := pnlPct direction entry_price x.1.close,
            bars_held := x.2.2 }) := by
  unfold simulateSingleTrade
  rcases hfb : futureBars symbol_data entry_bar_idx max_bars with _ | ⟨b, bs⟩
  · simp [exitSpec]
  · rw [if_neg (by simp)]
    rw [findExit_eq_exitSpec]
    rcases exitSpec direction entry_price take_profit stop_loss (b :: bs) with
      _ | ⟨bar, reason, held⟩
    · rfl
    · simp

/-! ### C4: the spec's concrete exit-timing scenario -/

/-- C4 counterexample.  On the scenario data with `take_profit = 3.0`,
`stop_loss = 1.5` and `entry_price = 100`, the long trade does NOT exit with
reason `take_profit` (the claim says it does, at the third future bar), and
the short trade does NOT exit after 2 bars (the claim says it does). -/
theorem exit_scenario_cex :
    (simulateSingleTrade scenarioData "X" .long 0 100 0 3 (3/2) 20).map
        Trade.exitReason ≠ some ExitReason.take_profit ∧
    (simulateSingleTrade scenarioData "X" .short 0 100 0 3 (3/2) 20).map
        Trade.bars_held ≠ some 2 := by
  norm_num [simulateSingleTrade, futureBars, findExit, pnlPct, scenarioData,
    flatCandle]
  decide

/-- C4 amended.  On the scenario data the long trade exits at the second
future bar with reason `stop_loss`, pnl `-1.6` and `bars_held = 2` (the bar
at close 98.4 already breaches the 1.5% stop), and the short trade exits at
the third future bar with reason `stop_loss`, pnl `-3.2` and
`bars_held = 3`. -/
theorem exit_scenario_actual :
    simulateSingleTrade scenarioData "X" .long 0 100 0 3 (3/2) 20 =
      some { symbol := "X", direction := .long, entryPrice := 100,
             entryTime := 0, exitPrice := 492/5, exitTime := 2,
             exitReason := .stop_loss, pnl := -8/5, bars_held := 2 } ∧
    simulateSingleTrade scenarioData "X" .short 0 100 0 3 (3/2) 20 =
      some { symbol := "X", direction := .short, entryPrice := 100,
             entryTime := 0, exitPrice := 516/5, exitTime := 3,
             exitReason := .stop_loss, pnl := -16/5, bars_held := 3 } := by
  norm_num [simulateSingleTrade, futureBars, findExit, pnlPct, scenarioData,
    flatCandle]

/-! ### C5: RSI warm-up alignment -/

/-- C5, evaluation at the failing input.  For closes `[1, 2, 3]` and
`period = 2` (more than `period` candles), `calculate_rsi` returns
`[None, 100.0, None]`: a defined value at index `1 < period` and an
undefined sentinel at the tail index `2 ≥ period`.  The claim (and the
function's own docstring, "None for values before period") requires
`[None, None, defined]` instead: undefined sentinels exactly at indices
`0..period-1` and defined values from index `period` on. -/
theorem rsi_warmup_misalignment_eval :
    calculateRsiCandles [flatCandle 0 1, flatCandle 1 2, flatCandle 2 3] 2 =
      [none, some 100, none] := by
  norm_num [calculateRsiCandles, calculateRsi, diffs, mean, rsiFromAvgs,
    rsiLoop, flatCandle]

/-- C7 counterexample.  The live strength function has no lower clamp: with
`price_metric = -30` the price contribution is `min(-200, 20) = -200` and
the total strength is `-150`, outside `[0, 100]`. -/
theorem strength_below_zero_cex :
    calculateOpportunityStrength c7Ranking (zeroChanges "S") c7Metrics
      Direction.long < 0 := by
  norm_num [calculateOpportunityStrength, c7Ranking, c7Metrics, zeroChanges,
    THRESHOLD_volume, THRESHOLD_momentum, THRESHOLD_zscore,
    THRESHOLD_rank_change, THRESHOLD_price]
  rw [if_neg (by decide)]
  norm_num

/-- C7 amended.  For every ranking, ranking-changes and metrics input and
both directions, the live opportunity strength is at most 100 (the final
`min(score, 100.0)` cap); the claimed lower bound 0 does not hold in
general. -/
theorem strength_upper_bound (ranking : RankingRecord) (changes : RankChanges)
    (metrics : MetricRecord) (direction : Direction) :
    calculateOpportunityStrength ranking changes metrics direction ≤ 100 := by
  unfold calculateOpportunityStrength
  exact min_le_right _ _

/-! ### C9: invalid-configuration handling -/

/-- C9 counterexample.  With an unknown mode but insufficient data (here an
empty candle list, `period = 1`), `calculate_price_change_percentage` does
NOT fail: the insufficient-data early return fires before the mode is ever
validated, and the call returns a normal all-`None` result. -/
theorem invalid_config_cex :
    calculatePriceChangePercentage [] 1 "bogus" = .ok [] ∧
    ∀ msg, calculatePriceChangePercentage [] 1 "bogus" ≠ .error msg := by
  refine ⟨rfl, fun msg h => ?_⟩
  rw [show calculatePriceChangePercentage [] 1 "bogus" = .ok [] from rfl] at h
  exact Except.noConfusion h

/-- C9 amended.  `calculate_price_change_percentage` with an unknown mode
raises the descriptive `ValueError` before appending any result, provided at
least `period + 1` candles are present (with fewer candles the
insufficient-data early return wins and no error is raised); and
`run_backtest` with an invalid bar range returns immediately with the empty
result `{'long': [], 'short': [], 'summary': None}` (no summary, no trades)
before any metric or ranking computation starts. -/
theorem invalid_config_fail_fast :
    (∀ (data : List Candle) (period : ℕ) (mode : String),
      period + 1 ≤ data.length →
      mode ≠ "close-to-close" → mode ≠ "open-to-close" → mode ≠ "high-to-low" →
      calculatePriceChangePercentage data period mode =
        .error ("Invalid mode: " ++ mode)) ∧
    (∀ (ops : FloatOps) (backtest_id : String)
      (historical_data : List (String × List Candle)) (timeframe : String)
      (start_idx : ℤ) (end_idx? : Option ℤ) (take_profit stop_loss : ℚ)
      (max_bars : ℕ),
      invalidRange historical_data start_idx end_idx? →
      runBacktest ops backtest_id historical_data timeframe start_idx end_idx?
          take_profit stop_loss max_bars =
        { long := [], short := [], summary := none }) := by
  constructor
  · intro data period mode hlen h1 h2 h3
    unfold calculatePriceChangePercentage
    rw [if_neg (by omega)]
    obtain ⟨k, hk⟩ : ∃ k, data.length - period = k + 1 :=
      ⟨data.length - period - 1, by omega⟩
    rw [hk, List.range'_succ]
    unfold pcpLoop pcpStartEnd
    rw [if_neg h1, if_neg h2, if_neg h3]
  · intro ops backtest_id historical_data timeframe start_idx end_idx?
      take_profit stop_loss max_bars h
    simp only [invalidRange] at h
    simp only [runBacktest]
    rw [if_pos h]

/-- C9 witness: the theorem applied at a concrete unknown mode with enough
candles and at a concrete invalid bar range. -/
theorem invalid_config_fail_fast_witness :
    calculatePriceChangePercentage [flatCandle 0 1, flatCandle 1 2] 1 "typo" =
      .error ("Invalid mode: " ++ "typo") ∧
    runBacktest ⟨id, id⟩ "bid" [("A", [flatCandle 0 1])] "1m" 5 (some 3) 3
        (3/2) 20 =
      { long := [], short := [], summary := none } :=
  ⟨invalid_config_fail_fast.1 [flatCandle 0 1, flatCandle 1 2] 1 "typo"
      (by decide) (by decide) (by decide) (by decide),
   invalid_config_fail_fast.2 ⟨id, id⟩ "bid" [("A", [flatCandle 0 1])] "1m" 5
      (some 3) 3 (3/2) 20 (by decide)⟩

/-! ### C10: per-direction summary partition -/

/-- Helper: the strictly-positive and non-positive pnl values partition any
rational list. -/
theorem length_filter_pos_add_nonpos (l : List ℚ) :
    (l.filter (fun p => decide (0 < p))).length +
      (l.filter (fun p => decide (p ≤ 0))).length = l.length := by
  induction l with
  | nil => simp
  | cons a t ih =>
      rw [List.filter_cons, List.filter_cons]
      by_cases h : 0 < a
      · rw [if_pos (by simpa using h), if_neg (by simpa using not_le.mpr h)]
        simp only [List.length_cons]
        omega
      · rw [if_neg (by simpa using h), if_pos (by simpa using not_lt.mp h)]
        simp only [List.length_cons]
        omega

/-- C10.  For every non-empty list of simulated trades,
`_calculate_direction_summary` partitions the trades exactly:
`winningTrades` counts trades with pnl strictly greater than 0,
`losingTrades` counts trades with pnl at most 0 (a zero-pnl trade counts as
losing), and `winningTrades + losingTrades = totalTrades`, the number of
trades. -/
theorem direction_summary_partition (results : List Trade)
    (start_time end_time : ℤ) (h : results ≠ []) :
    (calculateDirectionSummary results start_time end_time).winningTrades =
      (results.filter (fun r => decide (0 < r.pnl))).length ∧
    (calculateDirectionSummary results start_time end_time).losingTrades =
      (results.filter (fun r => decide (r.pnl ≤ 0))).length ∧
    (calculateDirectionSummary results start_time end_time).winningTrades +
        (calculateDirectionSummary results start_time end_time).losingTrades =
      (calculateDirectionSummary results start_time end_time).totalTrades ∧
    (calculateDirectionSummary results start_time end_time).totalTrades =
      results.length := by
  have hne : results.isEmpty = false := by
    cases results with
    | nil => exact absurd rfl h
    | cons a t => rfl
  unfold calculateDirectionSummary
  rw [if_neg (by simp [hne])]
  refine ⟨?_, ?_, ?_, rfl⟩
  · simp only [List.filter_map, List.length_map]
    rfl
  · simp only [List.filter_map, List.length_map]
    rfl
  · simp only
    rw [length_filter_pos_add_nonpos (results.map Trade.pnl),
      List.length_map]

/-- C10 witness: a concrete three-trade list (one winner, one zero-pnl
trade, one loser). -/
theorem direction_summary_partition_witness :
    ([c10win, c10zero, c10loss] : List Trade) ≠ [] ∧
    (calculateDirectionSummary [c10win, c10zero, c10loss] 0 0).winningTrades =
      ([c10win, c10zero, c10loss].filter (fun r => decide (0 < r.pnl))).length ∧
    (calculateDirectionSummary [c10win, c10zero, c10loss] 0 0).losingTrades =
      ([c10win, c10zero, c10loss].filter (fun r => decide (r.pnl ≤ 0))).length ∧
    (calculateDirectionSummary [c10win, c10zero, c10loss] 0 0).winningTrades +
        (calculateDirectionSummary [c10win, c10zero, c10loss] 0 0).losingTrades =
      (calculateDirectionSummary [c10win, c10zero, c10loss] 0 0).totalTrades ∧
    (calculateDirectionSummary [c10win, c10zero, c10loss] 0 0).totalTrades = 3 :=
  ⟨by decide,
   (direction_summary_partition [c10win, c10zero, c10loss] 0 0 (by decide)).1,
   (direction_summary_partition [c10win, c10zero, c10loss] 0 0 (by decide)).2.1,
   (direction_summary_partition [c10win, c10zero, c10loss] 0 0 (by decide)).2.2.1,
   (direction_summary_partition [c10win, c10zero, c10loss] 0 0 (by decide)).2.2.2⟩

/-! ### C1: backtest no-look-ahead -/

/-- The per-bar truncation only depends on each symbol's truncated candles:
filtering on `len(data) > idx` is the same as keeping the truncations of
full length `idx + 1`. -/
theorem currentData_eq_filter_take (historical_data : List (String × List Candle))
    (idx : ℕ) :
    currentData historical_data idx =
      (historical_data.map (fun sd => (sd.1, sd.2.take (idx + 1)))).filter
        (fun sd => decide (sd.2.length = idx + 1)) := by
  unfold currentData
  rw [List.filter_map]
  congr 1
  apply List.filter_congr
  intro sd _
  simp only [Function.comp, List.length_take, decide_eq_decide,
    min_eq_left_iff]
  omega

/-- C1.  Backtest no-look-ahead: for any two historical data sets whose
per-symbol candle sequences agree up to and including index `idx` (in the
sense that all length-`idx+1` truncations agree), the metrics and the
rankings computed by the backtest at bar `idx` are identical — altering or
removing candles after index `idx` cannot change them. -/
theorem backtest_no_look_ahead (ops : FloatOps)
    (d1 d2 : List (String × List Candle)) (idx : ℕ)
    (h : d1.map (fun sd => (sd.1, sd.2.take (idx + 1))) =
      d2.map (fun sd => (sd.1, sd.2.take (idx + 1)))) :
    metricsAtBar ops d1 idx = metricsAtBar ops d2 idx ∧
    rankingsAtBar ops d1 idx = rankingsAtBar ops d2 idx := by
  have hc : currentData d1 idx = currentData d2 idx := by
    rw [currentData_eq_filter_take, currentData_eq_filter_take, h]
  exact ⟨by unfold metricsAtBar; rw [hc],
    by unfold rankingsAtBar metricsAtBar; rw [hc]⟩

/-- C1 witness: the two data sets agree up to bar index 1 and the theorem
yields identical bar-1 rankings although the later candle differs. -/
theorem backtest_no_look_ahead_witness :
    (c1Data1.map (fun sd => (sd.1, sd.2.take (1 + 1))) =
      c1Data2.map (fun sd => (sd.1, sd.2.take (1 + 1)))) ∧
    rankingsAtBar opsId c1Data1 1 = rankingsAtBar opsId c1Data2 1 :=
  ⟨rfl, (backtest_no_look_ahead opsId c1Data1 c1Data2 1 rfl).2⟩

theorem assignRanksAux_length (l : List ℚ) :
    ∀ (idx cur : ℕ) (prev : Option ℚ),
      (assignRanksAux l idx cur prev).length = l.length := by
  induction l with
  | nil => intro idx cur prev; rfl
  | cons v rest ih => intro idx cur prev; simp [assignRanksAux, ih]

theorem assignRanks_length (vs : List ℚ) :
    (assignRanks vs).length = vs.length :=
  assignRanksAux_length vs 0 1 none

/-- Consecutive-position behaviour of the rank-assignment loop: a repeated
value keeps the previous rank, a new value opens rank `position + 1`. -/
theorem assignRanksAux_get_succ :
    ∀ (l : List ℚ) (idx cur : ℕ) (prev : Option ℚ) (k : ℕ),
      k + 1 < l.length →
      (assignRanksAux l idx cur prev)[k + 1]? =
        if l[k + 1]? = l[k]? then (assignRanksAux l idx cur prev)[k]?
        else some (idx + k + 2) := by
  intro l
  induction l with
  | nil => intro idx cur prev k hk; simp at hk
  | cons a t ih =>
      intro idx cur prev k hk
      match k with
      | 0 =>
          match t, hk with
          | b :: t2, _ =>
              by_cases hab : b = a
              · subst hab
                simp [assignRanksAux]
              · simp [assignRanksAux, hab, Ne.symm hab]
      | Nat.succ k2 =>
          have hk2 : k2 + 1 < t.length := by
            simp only [List.length_cons] at hk; omega
          have hrec := ih (idx + 1)
            (if 0 < idx ∧ prev ≠ some a then idx + 1 else cur) (some a) k2 hk2
          simp only [assignRanksAux, List.getElem?_cons_succ]
          rw [show idx + (k2 + 1) + 2 = idx + 1 + k2 + 2 by omega]
          exact hrec

/-- The first assigned rank is `1`. -/
theorem assignRanks_get_zero (v : ℚ) (rest : List ℚ) :
    (assignRanks (v :: rest))[0]? = some 1 := by
  simp [assignRanks, assignRanksAux]

/-- On a sorted value list the assigned rank of every position equals one
plus the index of the first occurrence of its value: tied values share the
first member's 1-based sorted position and ranks are never renumbered. -/
theorem assignRanks_get_sorted (vs : List ℚ) (hs : vs.Sorted (· ≤ ·)) :
    ∀ (k : ℕ) (v : ℚ), vs[k]? = some v →
      (assignRanks vs)[k]? = some (vs.findIdx (fun x => x == v) + 1) := by
  have hmono : ∀ (i j : ℕ) (hi : i < vs.length) (hj : j < vs.length),
      i ≤ j → vs.get ⟨i, hi⟩ ≤ vs.get ⟨j, hj⟩ := by
    intro i j hi hj hij
    rcases Nat.lt_or_ge i j with hlt | hge
    · exact hs.rel_get_of_lt hlt
    · have : i = j := le_antisymm hij hge
      subst this
      exact le_refl _
  intro k
  induction k with
  | zero =>
      intro v hv
      match vs, hv with
      | w :: rest, hv =>
          have : w = v := by simpa using hv
          subst this
          rw [assignRanks_get_zero]
          simp [List.findIdx_cons]
  | succ k2 ihk =>
      intro v hv
      have hk : k2 + 1 < vs.length := by
        by_contra hcon
        rw [List.getElem?_eq_none (by omega)] at hv
        exact Option.noConfusion hv
      have hk2 : k2 < vs.length := by omega
      obtain ⟨w, hw⟩ : ∃ w, vs[k2]? = some w :=
        ⟨vs.get ⟨k2, hk2⟩, by simp [List.getElem?_eq_getElem hk2,
          List.get_eq_getElem]⟩
      have hvget : vs.get ⟨k2 + 1, hk⟩ = v := by
        have := List.getElem?_eq_getElem hk
        rw [hv] at this
        simpa [List.get_eq_getElem] using this.symm
      have hwget : vs.get ⟨k2, hk2⟩ = w := by
        have := List.getElem?_eq_getElem hk2
        rw [hw] at this
        simpa [List.get_eq_getElem] using this.symm
      have hstep := assignRanksAux_get_succ vs 0 1 none k2 hk
      rw [show assignRanksAux vs 0 1 none = assignRanks vs from rfl] at hstep
      by_cases heq : v = w
      · subst heq
        rw [hstep, if_pos (by rw [hv, hw]), ihk v hw]
      · rw [hstep, if_neg (by rw [hv, hw]; simpa using heq)]
        have hfind : vs.findIdx (fun x => x == v) = k2 + 1 := by
          rw [List.findIdx_eq hk]
          constructor
          · have : vs[k2 + 1] = v := by
              rw [← hvget]; simp [List.get_eq_getElem]
            simp [this]
          · intro j hj
            have hjlen : j < vs.length := by omega
            have h1 : vs.get ⟨j, hjlen⟩ ≤ vs.get ⟨k2, hk2⟩ :=
              hmono j k2 hjlen hk2 (by omega)
            have h2 : vs.get ⟨k2, hk2⟩ ≤ vs.get ⟨k2 + 1, hk⟩ :=
              hmono k2 (k2 + 1) hk2 hk (by omega)
            have hjv : vs[j] = vs.get ⟨j, hjlen⟩ := by
              simp [List.get_eq_getElem]
            rw [hjv]
            simp only [beq_eq_false_iff_ne, ne_eq]
            intro habs
            apply heq
            have hvw : v ≤ w := by rw [← habs, ← hwget]; exact h1
            have hwv : w ≤ v := by rw [← hwget, ← hvget]; exact h2
            exact le_antisymm hvw hwv
        rw [hfind]
        congr 1
        omega

/-- Dictionary lookup on a zip of distinct keys returns the value at the
key's position. -/
theorem lookup_zip (ks : List String) :
    ∀ (rs : List ℕ), ks.Nodup → ∀ (i : ℕ) (s : String), ks[i]? = some s →
      ks.length ≤ rs.length → List.lookup s (ks.zip rs) = rs[i]? := by
  induction ks with
  | nil => intro rs _ i s h _; simp at h
  | cons a kt ih =>
      intro rs hnd i s hks hlen
      match rs, hlen with
      | b :: rt, hlen =>
          match i, hks with
          | 0, hks =>
              have hsa : s = a := by simpa using hks.symm
              subst hsa
              simp [List.zip_cons_cons, List.lookup]
          | Nat.succ i2, hks =>
              have hks2 : kt[i2]? = some s := by simpa using hks
              have hsmem : s ∈ kt := List.mem_iff_getElem?.mpr ⟨i2, hks2⟩
              have hsa : (s == a) = false := by
                have : s ≠ a := by
                  intro hcon
                  subst hcon
                  exact (List.nodup_cons.mp hnd).1 hsmem
                simpa using this
              rw [List.zip_cons_cons]
              show List.lookup s ((a, b) :: kt.zip rt) = _
              rw [show List.lookup s ((a, b) :: kt.zip rt) =
                  List.lookup s (kt.zip rt) by simp [List.lookup, hsa]]
              rw [ih rt (List.nodup_cons.mp hnd).2 i2 s hks2
                (by simpa using hlen)]
              simp

/-- The overall-rank dictionary is the zip of the score-sorted symbols with
the tie-aware ranks of the score-sorted values. -/
theorem overallRanks_eq (metrics : List MetricRecord) :
    overallRanks metrics =
      (((baseRankings metrics).mergeSort leScore).map RankingRecord.symbol).zip
        (assignRanks
          (((baseRankings metrics).mergeSort leScore).map scoreOf)) := rfl

/-- The symbols of the intermediate ranking records are the symbols of the
metric records, in order. -/
theorem baseRankings_map_symbol (metrics : List MetricRecord) :
    (baseRankings metrics).map RankingRecord.symbol =
      metrics.map MetricRecord.symbol := by
  simp [baseRankings, List.map_map]

/-- The total scores of the final rankings are those of the intermediate
records (writing in `overall_rank` does not change scores). -/
theorem calculateRankings_map_score (metrics : List MetricRecord)
    (hne : metrics.isEmpty = false) :
    (calculateRankings metrics).map scoreOf =
      (baseRankings metrics).map scoreOf := by
  simp [calculateRankings, hne, List.map_map, scoreOf]

theorem leScore_trans : ∀ a b c : RankingRecord,
    leScore a b = true → leScore b c = true → leScore a c = true := by
  intro a b c hab hbc
  simp only [leScore, decide_eq_true_eq] at hab hbc ⊢
  exact le_trans hab hbc

theorem leScore_total : ∀ a b : RankingRecord,
    (leScore a b || leScore b a) = true := by
  intro a b
  simp only [leScore, Bool.or_eq_true, decide_eq_true_eq]
  exact le_total _ _

/-- Key lemma for C2 and C8: under distinct symbols, every record's
`overall_rank` is the tie-aware rank of its `total_score` in the ascending
sorted score list. -/
theorem overallRank_eq_tieRank (metrics : List MetricRecord)
    (h2 : (metrics.map MetricRecord.symbol).Nodup) :
    ∀ r ∈ calculateRankings metrics,
      r.overall_rank =
        tieRank (sortedTotalScores (calculateRankings metrics))
          (scoreOf r) := by
  intro r hr
  have hne : metrics.isEmpty = false := by
    cases metrics with
    | nil => simp [calculateRankings] at hr
    | cons a t => rfl
  rw [calculateRankings, if_neg (by simp [hne])] at hr
  obtain ⟨r0, hr0mem, hr0⟩ := List.mem_map.mp hr
  have hperm : ((baseRankings metrics).mergeSort leScore).Perm
      (baseRankings metrics) :=
    List.mergeSort_perm (baseRankings metrics) leScore
  have hr0sorted : r0 ∈ (baseRankings metrics).mergeSort leScore :=
    hperm.mem_iff.mpr hr0mem
  obtain ⟨i, hi⟩ := List.mem_iff_getElem?.mp hr0sorted
  have hndS : (((baseRankings metrics).mergeSort leScore).map
      RankingRecord.symbol).Nodup := by
    have hpm := hperm.map RankingRecord.symbol
    rw [baseRankings_map_symbol] at hpm
    exact (hpm.symm).nodup h2
  have hsortedVals : (((baseRankings metrics).mergeSort leScore).map
      scoreOf).Sorted (· ≤ ·) := by
    have hpw := List.sorted_mergeSort leScore_trans leScore_total
      (baseRankings metrics)
    have hpw2 : ((baseRankings metrics).mergeSort leScore).Pairwise
        (fun a b => scoreOf a ≤ scoreOf b) := by
      refine hpw.imp ?_
      intro a b hab
      simpa [leScore] using hab
    exact List.pairwise_map.mpr hpw2
  have hssEq : ((baseRankings metrics).mergeSort leScore).map scoreOf =
      sortedTotalScores (calculateRankings metrics) := by
    refine List.eq_of_perm_of_sorted ?_ hsortedVals ?_
    · refine (hperm.map scoreOf).trans ?_
      rw [← calculateRankings_map_score metrics hne]
      exact (List.mergeSort_perm _ _).symm
    · exact List.sorted_mergeSort' _
  have hsym : (((baseRankings metrics).mergeSort leScore).map
      RankingRecord.symbol)[i]? = some r0.symbol := by
    rw [List.getElem?_map, hi]
    rfl
  have hvals : (((baseRankings metrics).mergeSort leScore).map
      scoreOf)[i]? = some (scoreOf r0) := by
    rw [List.getElem?_map, hi]
    rfl
  have hlookup := lookup_zip
    (((baseRankings metrics).mergeSort leScore).map RankingRecord.symbol)
    (assignRanks (((baseRankings metrics).mergeSort leScore).map scoreOf))
    hndS i r0.symbol hsym (by rw [assignRanks_length]; simp)
  have hchar := assignRanks_get_sorted
    (((baseRankings metrics).mergeSort leScore).map scoreOf) hsortedVals i
    (scoreOf r0) hvals
  have hrank : rankGet (overallRanks metrics) r0.symbol 999 =
      (((baseRankings metrics).mergeSort leScore).map scoreOf).findIdx
        (fun x => x == scoreOf r0) + 1 := by
    rw [rankGet, overallRanks_eq, hlookup, hchar]
    rfl
  subst hr0
  show rankGet (overallRanks metrics) r0.symbol 999 = _
  rw [hrank]
  show List.findIdx (fun x => x == scoreOf r0)
      (List.map scoreOf ((baseRankings metrics).mergeSort leScore)) + 1 =
    tieRank (sortedTotalScores (calculateRankings metrics)) (scoreOf r0)
  simp only [tieRank]
  rw [← hssEq]

/-- Every intermediate ranking record's `total_score` is the sum of its five
per-metric ranks (by construction). -/
theorem baseRankings_score_sum (metrics : List MetricRecord) :
    ∀ r ∈ baseRankings metrics,
      r.total_score = r.volume_rank + r.momentum_rank + r.total_pct_rank +
        r.zscore_rank + r.price_rank := by
  intro r hr
  simp only [baseRankings, List.mem_map] at hr
  obtain ⟨m, _, hr⟩ := hr
  subst hr
  rfl

/-- Every final ranking record's `total_score` is the sum of its five
per-metric ranks. -/
theorem calculateRankings_score_sum (metrics : List MetricRecord) :
    ∀ r ∈ calculateRankings metrics,
      r.total_score = r.volume_rank + r.momentum_rank + r.total_pct_rank +
        r.zscore_rank + r.price_rank := by
  intro r hr
  rw [calculateRankings] at hr
  by_cases hne : metrics.isEmpty
  · rw [if_pos hne] at hr
    simp at hr
  · rw [if_neg hne] at hr
    obtain ⟨r0, hr0mem, hr0⟩ := List.mem_map.mp hr
    subst hr0
    exact baseRankings_score_sum metrics r0 hr0mem

/-- The sorted score list is a permutation of the output's score list. -/
theorem sortedTotalScores_perm (rs : List RankingRecord) :
    (sortedTotalScores rs).Perm (rs.map scoreOf) := by
  unfold sortedTotalScores scoreOf
  exact List.mergeSort_perm _ _

/-- The sorted score list is sorted ascending. -/
theorem sortedTotalScores_sorted (rs : List RankingRecord) :
    (sortedTotalScores rs).Sorted (· ≤ ·) := by
  unfold sortedTotalScores
  exact List.sorted_mergeSort' _

/-- A record whose score is minimal in the output receives overall rank 1. -/
theorem minimal_score_rank_one (metrics : List MetricRecord)
    (h2 : (metrics.map MetricRecord.symbol).Nodup) :
    ∀ r ∈ calculateRankings metrics,
      (∀ s ∈ calculateRankings metrics, r.total_score ≤ s.total_score) →
        r.overall_rank = 1 := by
  intro r hr hmin
  rw [overallRank_eq_tieRank metrics h2 r hr]
  have hmem : scoreOf r ∈ sortedTotalScores (calculateRankings metrics) := by
    refine (sortedTotalScores_perm _).mem_iff.mpr ?_
    exact List.mem_map.mpr ⟨r, hr, rfl⟩
  match hss : sortedTotalScores (calculateRankings metrics), hmem with
  | h :: t, hmem =>
      have hsorted := sortedTotalScores_sorted (calculateRankings metrics)
      rw [hss] at hsorted
      have hhead : h ∈ (calculateRankings metrics).map scoreOf := by
        refine (sortedTotalScores_perm _).symm.mem_iff.mpr ?_
        rw [hss]
        exact List.mem_cons_self h t
      obtain ⟨s, hsMem, hsEq⟩ := List.mem_map.mp hhead
      have hle1 : scoreOf r ≤ h := by
        rw [← hsEq]
        simp only [scoreOf]
        exact_mod_cast hmin s hsMem
      have hle2 : h ≤ scoreOf r := by
        rcases List.mem_cons.mp hmem with hcase | hcase
        · rw [hcase]
        · exact (List.sorted_cons.mp hsorted).1 _ hcase
      have : h = scoreOf r := le_antisymm hle2 hle1
      simp [tieRank, List.findIdx_cons, this]

/-- C2.  For every non-empty metrics mapping with distinct symbols, the
overall ranks produced by the ranking engine form the tie-aware
permutation-with-ties of `1..N`: each record's `overall_rank` is the 1-based
position of the first member of its tied score group in the ascending
sorted score list (so ties share the first position and ranks are never
renumbered to be contiguous), some record has rank 1, and every rank lies
in `1..N` where `N` is the number of ranked instruments. -/
theorem overall_rank_tie_structure (metrics : List MetricRecord)
    (h1 : metrics ≠ []) (h2 : (metrics.map MetricRecord.symbol).Nodup) :
    (∀ r ∈ calculateRankings metrics,
      r.overall_rank =
        tieRank (sortedTotalScores (calculateRankings metrics)) (scoreOf r)) ∧
    (∃ r ∈ calculateRankings metrics, r.overall_rank = 1) ∧
    (∀ r ∈ calculateRankings metrics,
      1 ≤ r.overall_rank ∧ r.overall_rank ≤ metrics.length) := by
  have hne : metrics.isEmpty = false := by
    cases metrics with
    | nil => exact absurd rfl h1
    | cons a t => rfl
  have hlen : (calculateRankings metrics).length = metrics.length := by
    simp [calculateRankings, hne, baseRankings]
  have hlenSS : (sortedTotalScores (calculateRankings metrics)).length =
      metrics.length := by
    rw [(sortedTotalScores_perm _).length_eq, List.length_map, hlen]
  refine ⟨overallRank_eq_tieRank metrics h2, ?_, ?_⟩
  · -- some record has rank 1: take one whose score is the sorted head
    have hnonempty : sortedTotalScores (calculateRankings metrics) ≠ [] := by
      intro hcon
      rw [hcon] at hlenSS
      have : metrics.length ≠ 0 := by
        cases metrics with
        | nil => exact absurd rfl h1
        | cons a t => simp
      exact this hlenSS.symm
    match hss : sortedTotalScores (calculateRankings metrics), hnonempty with
    | h :: t, _ =>
        have hhead : h ∈ (calculateRankings metrics).map scoreOf := by
          refine (sortedTotalScores_perm _).symm.mem_iff.mpr ?_
          rw [hss]
          exact List.mem_cons_self h t
        obtain ⟨r1, hr1Mem, hr1Eq⟩ := List.mem_map.mp hhead
        refine ⟨r1, hr1Mem, ?_⟩
        refine minimal_score_rank_one metrics h2 r1 hr1Mem ?_
        intro s hsMem
        have hsSS : scoreOf s ∈ sortedTotalScores (calculateRankings metrics) := by
          refine (sortedTotalScores_perm _).mem_iff.mpr ?_
          exact List.mem_map.mpr ⟨s, hsMem, rfl⟩
        have hsorted := sortedTotalScores_sorted (calculateRankings metrics)
        rw [hss] at hsorted hsSS
        have hhs : h ≤ scoreOf s := by
          rcases List.mem_cons.mp hsSS with hcase | hcase
          · rw [hcase]
          · exact (List.sorted_cons.mp hsorted).1 _ hcase
        rw [← hr1Eq] at hhs
        simpa [scoreOf] using hhs
  · intro r hr
    constructor
    · rw [overallRank_eq_tieRank metrics h2 r hr, tieRank]
      omega
    · rw [overallRank_eq_tieRank metrics h2 r hr, tieRank]
      have hmem : scoreOf r ∈ sortedTotalScores (calculateRankings metrics) := by
        refine (sortedTotalScores_perm _).mem_iff.mpr ?_
        exact List.mem_map.mpr ⟨r, hr, rfl⟩
      have hlt : (sortedTotalScores (calculateRankings metrics)).findIdx
          (fun x => x == scoreOf r) <
          (sortedTotalScores (calculateRankings metrics)).length := by
        refine List.findIdx_lt_length.mpr ?_
        exact ⟨scoreOf r, hmem, by simp⟩
      omega

/-- C8.  For every symbol in the ranking engine's output (with distinct
symbols), `total_score` is exactly the sum of the five per-metric ranks,
and `overall_rank` is the same tie-aware ranking procedure applied
ascending to `total_score` (with rank 1 going to the lowest total score). -/
theorem total_score_composition (metrics : List MetricRecord)
    (h2 : (metrics.map MetricRecord.symbol).Nodup) :
    ∀ r ∈ calculateRankings metrics,
      r.total_score = r.volume_rank + r.momentum_rank + r.total_pct_rank +
          r.zscore_rank + r.price_rank ∧
      r.overall_rank =
        tieRank (sortedTotalScores (calculateRankings metrics)) (scoreOf r) ∧
      ((∀ s ∈ calculateRankings metrics, r.total_score ≤ s.total_score) →
        r.overall_rank = 1) := by
  intro r hr
  exact ⟨calculateRankings_score_sum metrics r hr,
    overallRank_eq_tieRank metrics h2 r hr,
    minimal_score_rank_one metrics h2 r hr⟩

/-- C2 witness: the theorem applied to the concrete three-symbol mapping. -/
theorem overall_rank_tie_structure_witness :
    c2Metrics ≠ [] ∧ (c2Metrics.map MetricRecord.symbol).Nodup ∧
    ((∀ r ∈ calculateRankings c2Metrics,
       r.overall_rank =
         tieRank (sortedTotalScores (calculateRankings c2Metrics)) (scoreOf r)) ∧
     (∃ r ∈ calculateRankings c2Metrics, r.overall_rank = 1) ∧
     (∀ r ∈ calculateRankings c2Metrics,
       1 ≤ r.overall_rank ∧ r.overall_rank ≤ c2Metrics.length)) :=
  ⟨by decide, by decide,
   overall_rank_tie_structure c2Metrics (by decide) (by decide)⟩

/-- C8 witness: the theorem applied to the concrete three-symbol mapping. -/
theorem total_score_composition_witness :
    (c2Metrics.map MetricRecord.symbol).Nodup ∧
    ∀ r ∈ calculateRankings c2Metrics,
      r.total_score = r.volume_rank + r.momentum_rank + r.total_pct_rank +
          r.zscore_rank + r.price_rank ∧
      r.overall_rank =
        tieRank (sortedTotalScores (calculateRankings c2Metrics)) (scoreOf r) ∧
      ((∀ s ∈ calculateRankings c2Metrics, r.total_score ≤ s.total_score) →
        r.overall_rank = 1) :=
  ⟨by decide, total_score_composition c2Metrics (by decide)⟩

/-! ### C6: opportunity dedup across detection cycles -/

theorem isLongOpportunity_not_mem {detL : List String}
    {history : List (ℤ × RankingsMap)} {sym : String}
    (h : isLongOpportunity detL history sym = true) : sym ∉ detL := by
  intro hmem
  rw [isLongOpportunity, if_pos hmem] at h
  exact Bool.noConfusion h

theorem isShortOpportunity_not_mem {detS : List String}
    {history : List (ℤ × RankingsMap)} {sym : String}
    (h : isShortOpportunity detS history sym = true) : sym ∉ detS := by
  intro hmem
  rw [isShortOpportunity, if_pos hmem] at h
  exact Bool.noConfusion h

/-- Long-direction invariants of the detection loop: the dedup set only
grows, a symbol already in the set is never emitted, and every emitted
symbol ends up in the set. -/
theorem detectLoop_long (history : List (ℤ × RankingsMap)) (now : ℤ)
    (cm : List (String × RankChanges)) (mm : List (String × MetricRecord))
    (s : String) :
    ∀ (items : List (String × RankingRecord)) (detL detS : List String)
      (accL accS : List LiveOpp),
      (s ∈ detL →
        s ∈ (detectLoop history now cm mm items detL detS accL accS).1) ∧
      (s ∈ detL → s ∉ accL.map LiveOpp.symbol →
        s ∉ ((detectLoop history now cm mm items detL detS accL accS).2.2.1.map
          LiveOpp.symbol)) ∧
      (s ∈ ((detectLoop history now cm mm items detL detS accL accS).2.2.1.map
          LiveOpp.symbol) →
        s ∈ accL.map LiveOpp.symbol ∨
          s ∈ (detectLoop history now cm mm items detL detS accL accS).1) := by
  intro items
  induction items with
  | nil =>
      intro detL detS accL accS
      refine ⟨fun h => h, fun _ h => h, fun h => Or.inl h⟩
  | cons p rest ih =>
      intro detL detS accL accS
      obtain ⟨sym, ranking⟩ := p
      by_cases hL : isLongOpportunity detL history sym = true
      · have hstep : detectLoop history now cm mm ((sym, ranking) :: rest)
            detL detS accL accS =
            detectLoop history now cm mm rest (detL ++ [sym])
              (if isShortOpportunity detS history sym then detS ++ [sym]
                else detS)
              (accL ++ [mkLiveOpp sym ranking
                ((List.lookup sym cm).getD (zeroChanges sym))
                ((List.lookup sym mm).getD defaultMetricRecord) now .long])
              (if isShortOpportunity detS history sym then
                accS ++ [mkLiveOpp sym ranking
                  ((List.lookup sym cm).getD (zeroChanges sym))
                  ((List.lookup sym mm).getD defaultMetricRecord) now .short]
                else accS) := by
          simp only [detectLoop, hL, if_true]
        rw [hstep]
        obtain ⟨ihA, ihB, ihC⟩ := ih (detL ++ [sym]) _ _ _
        have hsymNot : sym ∉ detL := isLongOpportunity_not_mem hL
        refine ⟨?_, ?_, ?_⟩
        · intro hs
          exact ihA (List.mem_append_left _ hs)
        · intro hs hacc
          have hneq : s ≠ sym := fun hcon => hsymNot (hcon ▸ hs)
          refine ihB (List.mem_append_left _ hs) ?_
          simp only [List.map_append, List.mem_append]
          rintro (hcase | hcase)
          · exact hacc hcase
          · simp [mkLiveOpp] at hcase
            exact hneq hcase
        · intro hs
          rcases ihC hs with hcase | hcase
          · simp only [List.map_append, List.mem_append] at hcase
            rcases hcase with hcase2 | hcase2
            · exact Or.inl hcase2
            · simp [mkLiveOpp] at hcase2
              subst hcase2
              exact Or.inr (ihA (List.mem_append_right _ (by simp)))
          · exact Or.inr hcase
      · have hL2 : isLongOpportunity detL history sym = false :=
          Bool.not_eq_true _ ▸ (by simpa using hL)
        have hstep : detectLoop history now cm mm ((sym, ranking) :: rest)
            detL detS accL accS =
            detectLoop history now cm mm rest detL
              (if isShortOpportunity detS history sym then detS ++ [sym]
                else detS)
              accL
              (if isShortOpportunity detS history sym then
                accS ++ [mkLiveOpp sym ranking
                  ((List.lookup sym cm).getD (zeroChanges sym))
                  ((List.lookup sym mm).getD defaultMetricRecord) now .short]
                else accS) := by
          simp only [detectLoop, hL2, if_false, Bool.false_eq_true]
        rw [hstep]
        obtain ⟨ihA, ihB, ihC⟩ := ih detL _ accL _
        exact ⟨ihA, ihB, ihC⟩

/-- Short-direction invariants of the detection loop. -/
theorem detectLoop_short (history : List (ℤ × RankingsMap)) (now : ℤ)
    (cm : List (String × RankChanges)) (mm : List (String × MetricRecord))
    (s : String) :
    ∀ (items : List (String × RankingRecord)) (detL detS : List String)
      (accL accS : List LiveOpp),
      (s ∈ detS →
        s ∈ (detectLoop history now cm mm items detL detS accL accS).2.1) ∧
      (s ∈ detS → s ∉ accS.map LiveOpp.symbol →
        s ∉ ((detectLoop history now cm mm items detL detS accL accS).2.2.2.map
          LiveOpp.symbol)) ∧
      (s ∈ ((detectLoop history now cm mm items detL detS accL accS).2.2.2.map
          LiveOpp.symbol) →
        s ∈ accS.map LiveOpp.symbol ∨
          s ∈ (detectLoop history now cm mm items detL detS accL accS).2.1) := by
  intro items
  induction items with
  | nil =>
      intro detL detS accL accS
      refine ⟨fun h => h, fun _ h => h, fun h => Or.inl h⟩
  | cons p rest ih =>
      intro detL detS accL accS
      obtain ⟨sym, ranking⟩ := p
      by_cases hS : isShortOpportunity detS history sym = true
      · have hstep : detectLoop history now cm mm ((sym, ranking) :: rest)
            detL detS accL accS =
            detectLoop history now cm mm rest
              (if isLongOpportunity detL history sym then detL ++ [sym]
                else detL)
              (detS ++ [sym])
              (if isLongOpportunity detL history sym then
                accL ++ [mkLiveOpp sym ranking
                  ((List.lookup sym cm).getD (zeroChanges sym))
                  ((List.lookup sym mm).getD defaultMetricRecord) now .long]
                else accL)
              (accS ++ [mkLiveOpp sym ranking
                ((List.lookup sym cm).getD (zeroChanges sym))
                ((List.lookup sym mm).getD defaultMetricRecord) now .short]) := by
          simp only [detectLoop, hS, if_true]
        rw [hstep]
        obtain ⟨ihA, ihB, ihC⟩ := ih _ (detS ++ [sym]) _ _
        have hsymNot : sym ∉ detS := isShortOpportunity_not_mem hS
        refine ⟨?_, ?_, ?_⟩
        · intro hs
          exact ihA (List.mem_append_left _ hs)
        · intro hs hacc
          have hneq : s ≠ sym := fun hcon => hsymNot (hcon ▸ hs)
          refine ihB (List.mem_append_left _ hs) ?_
          simp only [List.map_append, List.mem_append]
          rintro (hcase | hcase)
          · exact hacc hcase
          · simp [mkLiveOpp] at hcase
            exact hneq hcase
        · intro hs
          rcases ihC hs with hcase | hcase
          · simp only [List.map_append, List.mem_append] at hcase
            rcases hcase with hcase2 | hcase2
            · exact Or.inl hcase2
            · simp [mkLiveOpp] at hcase2
              subst hcase2
              exact Or.inr (ihA (List.mem_append_right _ (by simp)))
          · exact Or.inr hcase
      · have hS2 : isShortOpportunity detS history sym = false :=
          Bool.not_eq_true _ ▸ (by simpa using hS)
        have hstep : detectLoop history now cm mm ((sym, ranking) :: rest)
            detL detS accL accS =
            detectLoop history now cm mm rest
              (if isLongOpportunity detL history sym then detL ++ [sym]
                else detL)
              detS
              (if isLongOpportunity detL history sym then
                accL ++ [mkLiveOpp sym ranking
                  ((List.lookup sym cm).getD (zeroChanges sym))
                  ((List.lookup sym mm).getD defaultMetricRecord) now .long]
                else accL)
              accS := by
          simp only [detectLoop, hS2, if_false, Bool.false_eq_true]
        rw [hstep]
        obtain ⟨ihA, ihB, ihC⟩ := ih _ detS _ accS
        exact ⟨ihA, ihB, ihC⟩

/-- When at most 3600 seconds have elapsed since the recorded last reset,
`reset_detection_state` is a no-op. -/
theorem resetDetectionState_noop (st : DetectorState) (now t0 : ℤ)
    (hlast : st.last_detection_time = some t0) (htime : now - t0 ≤ 3600) :
    resetDetectionState st now = st := by
  have h1 : ¬(3600 < now - t0) := by omega
  rw [resetDetectionState, hlast]
  exact if_neg h1

/-- Sorting by strength does not change the emitted symbol set. -/
theorem sortByStrength_mem_map (l : List LiveOpp) (s : String) :
    s ∈ (sortByStrength l).map LiveOpp.symbol ↔ s ∈ l.map LiveOpp.symbol :=
  ((List.mergeSort_perm l _).map LiveOpp.symbol).mem_iff

/-- Any symbol emitted by a detection cycle is recorded in the resulting
dedup set for its direction. -/
theorem detectStep_emitted_recorded (st : DetectorState) (c : CycleInput)
    (s : String) (dir : Direction)
    (h : s ∈ ((detectStep st c).2.currentOf dir).map LiveOpp.symbol) :
    s ∈ (detectStep st c).1.detectedOf dir := by
  cases dir with
  | long =>
      simp only [detectStep, DetectOutput.currentOf,
        DetectorState.detectedOf] at h ⊢
      rw [sortByStrength_mem_map] at h
      rcases (detectLoop_long _ c.now c.ranking_changes c.metrics s
        c.rankings _ _ [] []).2.2 h with hcase | hcase
      · simp at hcase
      · exact hcase
  | short =>
      simp only [detectStep, DetectOutput.currentOf,
        DetectorState.detectedOf] at h ⊢
      rw [sortByStrength_mem_map] at h
      rcases (detectLoop_short _ c.now c.ranking_changes c.metrics s
        c.rankings _ _ [] []).2.2 h with hcase | hcase
      · simp at hcase
      · exact hcase

/-- One detection cycle within 3600 seconds of the last reset: a symbol
already in the dedup set is not emitted again, stays in the set, and the
reset clock is unchanged. -/
theorem detectStep_dedup (st : DetectorState) (c : CycleInput) (s : String)
    (dir : Direction) (t0 : ℤ) (hlast : st.last_detection_time = some t0)
    (htime : c.now - t0 ≤ 3600) :
    (s ∈ st.detectedOf dir →
      s ∉ ((detectStep st c).2.currentOf dir).map LiveOpp.symbol) ∧
    (s ∈ st.detectedOf dir → s ∈ (detectStep st c).1.detectedOf dir) ∧
    (detectStep st c).1.last_detection_time = some t0 := by
  have hnoop : resetDetectionState
      { st with ranking_history :=
          addRankingHistory st.ranking_history c.now c.rankings } c.now =
      { st with ranking_history :=
          addRankingHistory st.ranking_history c.now c.rankings } :=
    resetDetectionState_noop _ c.now t0 hlast htime
  cases dir with
  | long =>
      refine ⟨?_, ?_, ?_⟩
      · intro hs hmem
        simp only [detectStep, hnoop, DetectOutput.currentOf] at hmem
        rw [sortByStrength_mem_map] at hmem
        exact (detectLoop_long _ c.now c.ranking_changes c.metrics s
          c.rankings _ _ [] []).2.1 hs (by simp) hmem
      · intro hs
        simp only [detectStep, hnoop, DetectorState.detectedOf]
        exact (detectLoop_long _ c.now c.ranking_changes c.metrics s
          c.rankings _ _ [] []).1 hs
      · simp only [detectStep, hnoop]
        exact hlast
  | short =>
      refine ⟨?_, ?_, ?_⟩
      · intro hs hmem
        simp only [detectStep, hnoop, DetectOutput.currentOf] at hmem
        rw [sortByStrength_mem_map] at hmem
        exact (detectLoop_short _ c.now c.ranking_changes c.metrics s
          c.rankings _ _ [] []).2.1 hs (by simp) hmem
      · intro hs
        simp only [detectStep, hnoop, DetectorState.detectedOf]
        exact (detectLoop_short _ c.now c.ranking_changes c.metrics s
          c.rankings _ _ [] []).1 hs
      · simp only [detectStep, hnoop]
        exact hlast

/-- A symbol held in the dedup set is never emitted over any run of further
cycles whose times stay within 3600 seconds of the recorded last reset. -/
theorem runDetector_suppressed (dir : Direction) (s : String) (t0 : ℤ) :
    ∀ (cs : List CycleInput) (st : DetectorState),
      s ∈ st.detectedOf dir → st.last_detection_time = some t0 →
      (∀ cc ∈ cs, cc.now - t0 ≤ 3600) →
      ∀ out ∈ runDetector st cs, s ∉ (out.currentOf dir).map LiveOpp.symbol := by
  intro cs
  induction cs with
  | nil => intro st _ _ _ out hout; simp [runDetector] at hout
  | cons c rest ih =>
      intro st hs hlast htimes out hout
      have hc := detectStep_dedup st c s dir t0 hlast
        (htimes c (List.mem_cons_self c rest))
      rw [runDetector] at hout
      rcases List.mem_cons.mp hout with hcase | hcase
      · subst hcase
        exact hc.1 hs
      · exact ih (detectStep st c).1 (hc.2.1 hs) hc.2.2
          (fun cc hcc => htimes cc (List.mem_cons_of_mem c hcc)) out hcase

/-- C6.  Opportunity dedup: once a symbol is emitted as an opportunity for a
direction by `detect_opportunities`, it does not reappear in that
direction's current list in any subsequent detection cycle whose time is
within 3600 seconds of the detector's last reset (the dedup sets are only
cleared when more than 3600 seconds have elapsed since the last reset),
even if the symbol would re-qualify.  The statement covers both the long
and the short dedup set via `dir`. -/
theorem opportunity_dedup_suppression (dir : Direction) (st : DetectorState)
    (c : CycleInput) (cs : List CycleInput) (s : String) (t0 : ℤ)
    (hemit : s ∈ ((detectStep st c).2.currentOf dir).map LiveOpp.symbol)
    (hlast : (detectStep st c).1.last_detection_time = some t0)
    (htimes : ∀ cc ∈ cs, cc.now - t0 ≤ 3600) :
    ∀ out ∈ runDetector (detectStep st c).1 cs,
      s ∉ (out.currentOf dir).map LiveOpp.symbol :=
  runDetector_suppressed dir s t0 cs (detectStep st c).1
    (detectStep_emitted_recorded st c s dir hemit) hlast htimes

/-- C6 witness: BTCUSDT is emitted long in the first cycle and, by the
theorem, cannot reappear in the long list of the following cycle. -/
theorem opportunity_dedup_suppression_witness :
    ("BTCUSDT" ∈ ((detectStep c6St0 c6c1).2.currentOf .long).map
      LiveOpp.symbol) ∧
    ((detectStep c6St0 c6c1).1.last_detection_time = some 100) ∧
    (∀ cc ∈ [c6c2], cc.now - 100 ≤ 3600) ∧
    (∀ out ∈ runDetector (detectStep c6St0 c6c1).1 [c6c2],
      "BTCUSDT" ∉ (out.currentOf .long).map LiveOpp.symbol) :=
  ⟨(sortByStrength_mem_map _ _).mpr (by decide), by decide, by decide,
   opportunity_dedup_suppression .long c6St0 c6c1 [c6c2] "BTCUSDT" 100
     ((sortByStrength_mem_map _ _).mpr (by decide)) (by decide) (by decide)⟩

end Columb
